import Mathlib

/-!
# Verification of the `Get` query-gateway module

A shallow embedding of the typed query client (`Get` class) that exposes one
method per on-chain query.  Each method serializes a protobuf request message,
dispatches it through a single "unverified query" transport primitive under a
fixed RPC path string, and decodes the returned bytes with the matching
response message type.

The protobuf wire codec (varints, length-delimited fields, sub-messages) is
modelled at the byte level.  Strings and `bytes` fields are modelled as raw
byte lists (`Bytes`), and machine integers as `Nat`.
-/

namespace V4Client

/-- A byte string on the wire, each element one (unsigned) byte. -/
abbrev Bytes := List Nat

/-! ## Protobuf wire-format primitives -/

/-- Base-128 varint encoding, fuel-indexed so that it is structurally
recursive (the fuel `n` always dominates the number of 7-bit digits of `n`). -/
def varintAux : Nat → Nat → Bytes
  | 0, n => [n % 128]
  | fuel + 1, n => if n < 128 then [n] else (n % 128 + 128) :: varintAux fuel (n / 128)

/-- Base-128 varint encoding of a natural number (little-endian 7-bit groups,
high bit of each byte marks continuation). -/
def varint (n : Nat) : Bytes := varintAux n n

/-- Varint decoding: returns the decoded value and the remaining bytes. -/
def varintDec : Bytes → Option (Nat × Bytes)
  | [] => none
  | b :: rest =>
    if b < 128 then some (b, rest)
    else
      match varintDec rest with
      | none => none
      | some (v, r) => some (b - 128 + 128 * v, r)

/-- A length-delimited payload: varint length followed by the raw bytes. -/
def lenDelim (s : Bytes) : Bytes := varint s.length ++ s

/-- Decode a length-delimited payload; returns the payload and the rest. -/
def bytesDec (bs : Bytes) : Option (Bytes × Bytes) :=
  match varintDec bs with
  | none => none
  | some (len, rest) =>
    if len ≤ rest.length then some (rest.take len, rest.drop len) else none

/-- The wire tag for field number `fieldNo` with wire type `wire`. -/
def tagOf (fieldNo wire : Nat) : Nat := 8 * fieldNo + wire

/-- Encode a string/bytes field, omitted at the default (empty) value. -/
def encLenField (fieldNo : Nat) (s : Bytes) : Bytes :=
  if s = [] then [] else varint (tagOf fieldNo 2) ++ lenDelim s

/-- Encode an integer field as a varint, omitted at the default (zero) value. -/
def encVarintField (fieldNo : Nat) (v : Nat) : Bytes :=
  if v = 0 then [] else varint (tagOf fieldNo 0) ++ varint v

/-- Encode a boolean field, omitted at the default (false) value. -/
def encBoolField (fieldNo : Nat) (b : Bool) : Bytes :=
  if b then varint (tagOf fieldNo 0) ++ [1] else []

/-- Encode an embedded-message field: present iff the field is set, and then
always written (even when the sub-encoding is empty). -/
def encMsgField (fieldNo : Nat) : Option Bytes → Bytes
  | none => []
  | some s => varint (tagOf fieldNo 2) ++ lenDelim s

/-- Skip over one field value of the given wire type (used by decoders for
unknown field numbers). -/
def skipField (wire : Nat) (bs : Bytes) : Option Bytes :=
  if wire = 0 then (varintDec bs).map (·.2)
  else if wire = 1 then (if 8 ≤ bs.length then some (bs.drop 8) else none)
  else if wire = 2 then (bytesDec bs).map (·.2)
  else if wire = 5 then (if 4 ≤ bs.length then some (bs.drop 4) else none)
  else none

/-- A message decoder's per-field handler: given a wire tag, optionally a
reader that consumes the field value and updates the message under
construction.  `none` means the field number is unknown and is skipped. -/
abbrev Handler (α : Type) := Nat → Option (Bytes → α → Option (α × Bytes))

/-- Read a length-delimited field and update the message. -/
def readLen {α : Type} (upd : Bytes → α → α) : Bytes → α → Option (α × Bytes) :=
  fun bs acc => (bytesDec bs).map fun p => (upd p.1 acc, p.2)

/-- Read a varint field and update the message. -/
def readVarint {α : Type} (upd : Nat → α → α) : Bytes → α → Option (α × Bytes) :=
  fun bs acc => (varintDec bs).map fun p => (upd p.1 acc, p.2)

/-- Read a boolean (varint) field and update the message. -/
def readBool {α : Type} (upd : Bool → α → α) : Bytes → α → Option (α × Bytes) :=
  fun bs acc => (varintDec bs).map fun p => (upd (decide (p.1 ≠ 0)) acc, p.2)

/-- Read an embedded-message field: take the length-delimited payload, decode
it with the sub-message decoder, and update the message. -/
def readSub {α β : Type} (dec : Bytes → Option β) (upd : β → α → α) :
    Bytes → α → Option (α × Bytes) :=
  fun bs acc => (bytesDec bs).bind fun p => (dec p.1).map fun b => (upd b acc, p.2)

/-- The generic protobuf message-decoding loop: read a tag, dispatch on the
field number via the handler (or skip unknown fields), and continue on the
remaining bytes.  Fuel-indexed for structural recursion; every iteration of
the real loop consumes at least the tag byte, so `bs.length` fuel suffices. -/
def decodeLoop {α : Type} (h : Handler α) : Nat → Bytes → α → Option α
  | _, [], acc => some acc
  | 0, _ :: _, _ => none
  | fuel + 1, b :: bs, acc =>
    match varintDec (b :: bs) with
    | none => none
    | some (tag, rest) =>
      match h tag with
      | some k =>
        match k rest acc with
        | some (acc2, rest2) => decodeLoop h fuel rest2 acc2
        | none => none
      | none =>
        match skipField (tag % 8) rest with
        | some rest2 => decodeLoop h fuel rest2 acc
        | none => none

/-- Run a message decoder over a whole byte string. -/
def decodeMsg {α : Type} (h : Handler α) (init : α) (bs : Bytes) : Option α :=
  decodeLoop h bs.length bs init

/-! ## Round-trip lemmas for the wire primitives -/

theorem varintDec_varintAux (rest : Bytes) :
    ∀ fuel n, n ≤ fuel → varintDec (varintAux fuel n ++ rest) = some (n, rest) := by
  intro fuel
  induction fuel with
  | zero =>
    intro n hn
    have hn0 : n = 0 := Nat.le_zero.mp hn
    subst hn0
    simp [varintAux, varintDec]
  | succ f ih =>
    intro n hn
    by_cases h : n < 128
    · simp [varintAux, h, varintDec]
    · have hlt : n / 128 < n := Nat.div_lt_self (by omega) (by omega)
      have hd : n / 128 ≤ f := by omega
      have hih := ih (n / 128) hd
      simp only [varintAux, h, if_false, List.cons_append, varintDec]
      rw [if_neg (by omega), hih]
      have hmd := Nat.mod_add_div n 128
      have harith : n % 128 + 128 - 128 + 128 * (n / 128) = n := by omega
      simp only [harith]

theorem varintDec_varint (n : Nat) (rest : Bytes) :
    varintDec (varint n ++ rest) = some (n, rest) :=
  varintDec_varintAux rest n n le_rfl

theorem varintAux_ne_nil (fuel n : Nat) : varintAux fuel n ≠ [] := by
  cases fuel with
  | zero => simp [varintAux]
  | succ f =>
    simp only [varintAux]
    split <;> simp

theorem varint_ne_nil (n : Nat) : varint n ≠ [] := varintAux_ne_nil n n

theorem varint_length_pos (n : Nat) : 0 < (varint n).length :=
  List.length_pos.mpr (varint_ne_nil n)

theorem bytesDec_lenDelim (s rest : Bytes) :
    bytesDec (lenDelim s ++ rest) = some (s, rest) := by
  unfold bytesDec lenDelim
  rw [List.append_assoc, varintDec_varint]
  simp

theorem decodeLoop_nil {α : Type} (h : Handler α) (fuel : Nat) (acc : α) :
    decodeLoop h fuel [] acc = some acc := by
  cases fuel <;> simp [decodeLoop]

theorem decodeLoop_mono {α : Type} (h : Handler α) :
    ∀ f g, f ≤ g → ∀ (bs : Bytes) (acc r : α),
      decodeLoop h f bs acc = some r → decodeLoop h g bs acc = some r := by
  intro f
  induction f with
  | zero =>
    intro g _ bs acc r hd
    cases bs with
    | nil => simpa [decodeLoop_nil] using hd
    | cons b t => simp [decodeLoop] at hd
  | succ f ih =>
    intro g hg bs acc r hd
    cases bs with
    | nil => simpa [decodeLoop_nil] using hd
    | cons b t =>
      obtain ⟨g', rfl⟩ : ∃ g', g = g' + 1 := ⟨g - 1, by omega⟩
      simp only [decodeLoop] at hd ⊢
      cases hv : varintDec (b :: t) with
      | none => simp [hv] at hd
      | some p =>
        obtain ⟨tag, rest⟩ := p
        simp only [hv] at hd ⊢
        cases hh : h tag with
        | some k =>
          simp only [hh] at hd ⊢
          cases hk : k rest acc with
          | none => simp [hk] at hd
          | some q =>
            obtain ⟨acc2, rest2⟩ := q
            simp only [hk] at hd ⊢
            exact ih g' (by omega) rest2 acc2 r hd
        | none =>
          simp only [hh] at hd ⊢
          cases hs : skipField (tag % 8) rest with
          | none => simp [hs] at hd
          | some rest2 =>
            simp only [hs] at hd ⊢
            exact ih g' (by omega) rest2 acc r hd

/-- One iteration of the decoding loop on a known field. -/
theorem decodeLoop_step {α : Type} (h : Handler α) (f : Nat) (bs rest rest2 : Bytes)
    (acc acc2 : α) (tag : Nat) (k : Bytes → α → Option (α × Bytes))
    (h1 : varintDec bs = some (tag, rest)) (h2 : h tag = some k)
    (h3 : k rest acc = some (acc2, rest2)) :
    decodeLoop h (f + 1) bs acc = decodeLoop h f rest2 acc2 := by
  cases bs with
  | nil => simp [varintDec] at h1
  | cons b t => simp [decodeLoop, h1, h2, h3]

theorem decodeLoop_encLenField {α : Type} (h : Handler α) (fieldNo : Nat)
    (upd : Bytes → α → α) (hh : h (tagOf fieldNo 2) = some (readLen upd))
    (s rest : Bytes) (f : Nat) (acc : α) :
    decodeLoop h ((if s = [] then 0 else 1) + f) (encLenField fieldNo s ++ rest) acc
      = decodeLoop h f rest (if s = [] then acc else upd s acc) := by
  by_cases hs : s = []
  · simp [hs, encLenField]
  · have hb : encLenField fieldNo s ++ rest
        = varint (tagOf fieldNo 2) ++ (lenDelim s ++ rest) := by
      simp [encLenField, hs, List.append_assoc]
    have hfuel : (if s = [] then 0 else 1) + f = f + 1 := by
      rw [if_neg hs]; omega
    rw [hfuel, hb, if_neg hs]
    exact decodeLoop_step h f _ _ _ acc (upd s acc) _ (readLen upd)
      (varintDec_varint _ _) hh (by simp [readLen, bytesDec_lenDelim])

theorem decodeLoop_encVarintField {α : Type} (h : Handler α) (fieldNo : Nat)
    (upd : Nat → α → α) (hh : h (tagOf fieldNo 0) = some (readVarint upd))
    (v : Nat) (rest : Bytes) (f : Nat) (acc : α) :
    decodeLoop h ((if v = 0 then 0 else 1) + f) (encVarintField fieldNo v ++ rest) acc
      = decodeLoop h f rest (if v = 0 then acc else upd v acc) := by
  by_cases hv : v = 0
  · simp [hv, encVarintField]
  · have hb : encVarintField fieldNo v ++ rest
        = varint (tagOf fieldNo 0) ++ (varint v ++ rest) := by
      simp [encVarintField, hv, List.append_assoc]
    have hfuel : (if v = 0 then 0 else 1) + f = f + 1 := by
      rw [if_neg hv]; omega
    rw [hfuel, hb, if_neg hv]
    exact decodeLoop_step h f _ _ _ acc (upd v acc) _ (readVarint upd)
      (varintDec_varint _ _) hh (by simp [readVarint, varintDec_varint])

theorem decodeLoop_encBoolField {α : Type} (h : Handler α) (fieldNo : Nat)
    (upd : Bool → α → α) (hh : h (tagOf fieldNo 0) = some (readBool upd))
    (b : Bool) (rest : Bytes) (f : Nat) (acc : α) :
    decodeLoop h ((if b then 1 else 0) + f) (encBoolField fieldNo b ++ rest) acc
      = decodeLoop h f rest (if b then upd true acc else acc) := by
  cases b with
  | false => simp [encBoolField]
  | true =>
    have hb : encBoolField fieldNo true ++ rest
        = varint (tagOf fieldNo 0) ++ ([1] ++ rest) := by
      simp [encBoolField, List.append_assoc]
    simp only [if_pos trivial]
    rw [Nat.add_comm 1 f, hb]
    refine decodeLoop_step h f _ _ _ acc (upd true acc) _ (readBool upd)
      (varintDec_varint _ _) hh ?_
    simp [readBool, varintDec]

theorem decodeLoop_encMsgField {α β : Type} (h : Handler α) (fieldNo : Nat)
    (dec : Bytes → Option β) (encB : β → Bytes) (upd : β → α → α)
    (hh : h (tagOf fieldNo 2) = some (readSub dec upd))
    (hdec : ∀ p, dec (encB p) = some p)
    (o : Option β) (rest : Bytes) (f : Nat) (acc : α) :
    decodeLoop h ((if o.isSome then 1 else 0) + f)
        (encMsgField fieldNo (o.map encB) ++ rest) acc
      = decodeLoop h f rest (match o with | none => acc | some p => upd p acc) := by
  cases o with
  | none => simp [encMsgField]
  | some p =>
    have hb : encMsgField fieldNo (some (encB p)) ++ rest
        = varint (tagOf fieldNo 2) ++ (lenDelim (encB p) ++ rest) := by
      simp [encMsgField, List.append_assoc]
    simp only [Option.isSome_some, if_pos trivial,
      show Option.map encB (some p) = some (encB p) from rfl]
    rw [Nat.add_comm 1 f, hb]
    refine decodeLoop_step h f _ _ _ acc (upd p acc) _ (readSub dec upd)
      (varintDec_varint _ _) hh ?_
    simp [readSub, bytesDec_lenDelim, hdec]

/-- Transfer a decoding-loop computation at small fuel to the canonical
`decodeMsg` fuel (the length of the input). -/
theorem decodeMsg_of_fuel {α : Type} (h : Handler α) (bs : Bytes) (f : Nat)
    (init r : α) (hf : f ≤ bs.length) (hr : decodeLoop h f bs init = some r) :
    decodeMsg h init bs = some r :=
  decodeLoop_mono h f bs.length hf bs init r hr

/-! Length lower bounds: the fuel charged for a field never exceeds the
length of its encoding. -/

theorem encLenField_fuel_le (fieldNo : Nat) (s : Bytes) :
    (if s = [] then 0 else 1) ≤ (encLenField fieldNo s).length := by
  by_cases hs : s = []
  · simp [hs]
  · have := varint_length_pos (tagOf fieldNo 2)
    simp [hs, encLenField, List.length_append]
    omega

theorem encVarintField_fuel_le (fieldNo : Nat) (v : Nat) :
    (if v = 0 then 0 else 1) ≤ (encVarintField fieldNo v).length := by
  by_cases hv : v = 0
  · simp [hv]
  · have := varint_length_pos (tagOf fieldNo 0)
    simp [hv, encVarintField, List.length_append]
    omega

theorem encBoolField_fuel_le (fieldNo : Nat) (b : Bool) :
    (if b then 1 else 0) ≤ (encBoolField fieldNo b).length := by
  cases b with
  | false => simp
  | true =>
    have := varint_length_pos (tagOf fieldNo 0)
    simp [encBoolField, List.length_append]

theorem encMsgField_fuel_le (fieldNo : Nat) (o : Option Bytes) :
    (if o.isSome then 1 else 0) ≤ (encMsgField fieldNo o).length := by
  cases o with
  | none => simp
  | some s =>
    have := varint_length_pos (tagOf fieldNo 2)
    simp [encMsgField, List.length_append]
    omega

/-! ## Shared wire-schema messages

The wire schemas are external to the gateway source (generated from the
protocol definitions); they are modelled here at the protobuf wire level,
with fields at their protocol field numbers. -/

/-- Modelled from the spec: the shared pagination descriptor message
(`PaginationRequest` in the data model) — key/offset/limit/count-total/reverse
fields of the cosmos `PageRequest` message. -/
structure PageRequest where
  key : Bytes := []
  offset : Nat := 0
  limit : Nat := 0
  countTotal : Bool := false
  reverse : Bool := false
deriving DecidableEq

namespace PageRequest

def enc (m : PageRequest) : Bytes :=
  encLenField 1 m.key ++ encVarintField 2 m.offset ++ encVarintField 3 m.limit
    ++ encBoolField 4 m.countTotal ++ encBoolField 5 m.reverse

def handler : Handler PageRequest
  | 10 => some (readLen fun s m => { m with key := s })
  | 16 => some (readVarint fun v m => { m with offset := v })
  | 24 => some (readVarint fun v m => { m with limit := v })
  | 32 => some (readBool fun b m => { m with countTotal := b })
  | 40 => some (readBool fun b m => { m with reverse := b })
  | _ => none

def dec (bs : Bytes) : Option PageRequest := decodeMsg handler {} bs

theorem pageRequest_dec_enc (m : PageRequest) : dec (enc m) = some m := by
  obtain ⟨k, o, l, c, r⟩ := m
  refine decodeMsg_of_fuel handler _
    ((if k = [] then 0 else 1) + ((if o = 0 then 0 else 1) +
      ((if l = 0 then 0 else 1) + ((if c then 1 else 0) +
        ((if r then 1 else 0) + 0))))) {} _ ?_ ?_
  · have h1 := encLenField_fuel_le 1 k
    have h2 := encVarintField_fuel_le 2 o
    have h3 := encVarintField_fuel_le 3 l
    have h4 := encBoolField_fuel_le 4 c
    have h5 := encBoolField_fuel_le 5 r
    simp only [enc, List.length_append]
    omega
  · have hshape : enc ⟨k, o, l, c, r⟩
        = encLenField 1 k ++ (encVarintField 2 o ++ (encVarintField 3 l ++
            (encBoolField 4 c ++ (encBoolField 5 r ++ [])))) := by
      simp [enc, List.append_assoc]
    rw [hshape,
      decodeLoop_encLenField handler 1 _ rfl,
      decodeLoop_encVarintField handler 2 _ rfl,
      decodeLoop_encVarintField handler 3 _ rfl,
      decodeLoop_encBoolField handler 4 _ rfl,
      decodeLoop_encBoolField handler 5 _ rfl,
      decodeLoop_nil]
    by_cases hk : k = [] <;> by_cases ho : o = 0 <;> by_cases hl : l = 0 <;>
      cases c <;> cases r <;> simp [hk, ho, hl]

end PageRequest

/-- Modelled from the spec: the shared constant pagination descriptor
(`PAGE_REQUEST` from the repository's constants module, which is outside the
provided sources) — page size/offset/count-total flags applied to every list
query unless the caller supplies an override. -/
def PAGE_REQUEST : PageRequest :=
  { key := [], offset := 0, limit := 2 ^ 64 - 1, countTotal := true, reverse := false }

/-- The cosmos `Coin` message: a `(denom, amount)` pair (both strings on the
wire, modelled as raw bytes). -/
structure Coin where
  denom : Bytes := []
  amount : Bytes := []
deriving DecidableEq

namespace Coin

def enc (m : Coin) : Bytes := encLenField 1 m.denom ++ encLenField 2 m.amount

def handler : Handler Coin
  | 10 => some (readLen fun s m => { m with denom := s })
  | 18 => some (readLen fun s m => { m with amount := s })
  | _ => none

def dec (bs : Bytes) : Option Coin := decodeMsg handler {} bs

end Coin

/-- The `google.protobuf.Any` tagged envelope: a type identifier plus opaque
payload bytes. -/
structure Any where
  typeUrl : Bytes := []
  value : Bytes := []
deriving DecidableEq

namespace Any

def enc (m : Any) : Bytes := encLenField 1 m.typeUrl ++ encLenField 2 m.value

def handler : Handler Any
  | 10 => some (readLen fun s m => { m with typeUrl := s })
  | 18 => some (readLen fun s m => { m with value := s })
  | _ => none

def dec (bs : Bytes) : Option Any := decodeMsg handler {} bs

end Any

namespace FeeTierModule

structure QueryPerpetualFeeParamsRequest where
deriving DecidableEq

def QueryPerpetualFeeParamsRequest.enc (_ : QueryPerpetualFeeParamsRequest) : Bytes := []

def QueryPerpetualFeeParamsRequest.handler : Handler QueryPerpetualFeeParamsRequest :=
  fun _ => none

def QueryPerpetualFeeParamsRequest.dec (bs : Bytes) : Option QueryPerpetualFeeParamsRequest :=
  decodeMsg QueryPerpetualFeeParamsRequest.handler {} bs

theorem queryPerpetualFeeParamsRequest_dec_enc (m : QueryPerpetualFeeParamsRequest) :
    QueryPerpetualFeeParamsRequest.dec (QueryPerpetualFeeParamsRequest.enc m) = some m := by
  obtain ⟨⟩ := m
  rfl

structure QueryPerpetualFeeParamsResponse where
  params : Option Bytes := none
deriving DecidableEq

def QueryPerpetualFeeParamsResponse.handler : Handler QueryPerpetualFeeParamsResponse
  | 10 => some (readLen fun s m => { m with params := some s })
  | _ => none

def QueryPerpetualFeeParamsResponse.dec (bs : Bytes) : Option QueryPerpetualFeeParamsResponse :=
  decodeMsg QueryPerpetualFeeParamsResponse.handler {} bs

structure QueryUserFeeTierRequest where
  user : Bytes := []
deriving DecidableEq

def QueryUserFeeTierRequest.enc (m : QueryUserFeeTierRequest) : Bytes :=
  encLenField 1 m.user

def QueryUserFeeTierRequest.handler : Handler QueryUserFeeTierRequest
  | 10 => some (readLen fun s m => { m with user := s })
  | _ => none

def QueryUserFeeTierRequest.dec (bs : Bytes) : Option QueryUserFeeTierRequest :=
  decodeMsg QueryUserFeeTierRequest.handler {} bs

theorem queryUserFeeTierRequest_dec_enc (m : QueryUserFeeTierRequest) :
    QueryUserFeeTierRequest.dec (QueryUserFeeTierRequest.enc m) = some m := by
  obtain ⟨u⟩ := m
  refine decodeMsg_of_fuel QueryUserFeeTierRequest.handler _
    ((if u = [] then 0 else 1) + 0) {} _ ?_ ?_
  · have h1 := encLenField_fuel_le 1 u
    simp only [QueryUserFeeTierRequest.enc]
    omega
  · have hshape : QueryUserFeeTierRequest.enc ⟨u⟩ = encLenField 1 u ++ [] := by
      simp [QueryUserFeeTierRequest.enc]
    rw [hshape, decodeLoop_encLenField QueryUserFeeTierRequest.handler 1 _ rfl,
      decodeLoop_nil]
    by_cases hu : u = [] <;> simp [hu]

structure QueryUserFeeTierResponse where
  index : Nat := 0
  tier : Option Bytes := none
deriving DecidableEq

def QueryUserFeeTierResponse.handler : Handler QueryUserFeeTierResponse
  | 8 => some (readVarint fun v m => { m with index := v })
  | 18 => some (readLen fun s m => { m with tier := some s })
  | _ => none

def QueryUserFeeTierResponse.dec (bs : Bytes) : Option QueryUserFeeTierResponse :=
  decodeMsg QueryUserFeeTierResponse.handler {} bs

end FeeTierModule

namespace StatsModule

structure QueryUserStatsRequest where
  user : Bytes := []
deriving DecidableEq

def QueryUserStatsRequest.enc (m : QueryUserStatsRequest) : Bytes :=
  encLenField 1 m.user

def QueryUserStatsRequest.handler : Handler QueryUserStatsRequest
  | 10 => some (readLen fun s m => { m with user := s })
  | _ => none

def QueryUserStatsRequest.dec (bs : Bytes) : Option QueryUserStatsRequest :=
  decodeMsg QueryUserStatsRequest.handler {} bs

theorem queryUserStatsRequest_dec_enc (m : QueryUserStatsRequest) :
    QueryUserStatsRequest.dec (QueryUserStatsRequest.enc m) = some m := by
  obtain ⟨u⟩ := m
  refine decodeMsg_of_fuel QueryUserStatsRequest.handler _
    ((if u = [] then 0 else 1) + 0) {} _ ?_ ?_
  · have h1 := encLenField_fuel_le 1 u
    simp only [QueryUserStatsRequest.enc]
    omega
  · have hshape : QueryUserStatsRequest.enc ⟨u⟩ = encLenField 1 u ++ [] := by
      simp [QueryUserStatsRequest.enc]
    rw [hshape, decodeLoop_encLenField QueryUserStatsRequest.handler 1 _ rfl,
      decodeLoop_nil]
    by_cases hu : u = [] <;> simp [hu]

/-- The per-user trading stats record (taker and maker notional volumes). -/
structure UserStats where
  takerNotional : Nat := 0
  makerNotional : Nat := 0
deriving DecidableEq

def UserStats.enc (m : UserStats) : Bytes :=
  encVarintField 1 m.takerNotional ++ encVarintField 2 m.makerNotional

def UserStats.handler : Handler UserStats
  | 8 => some (readVarint fun v m => { m with takerNotional := v })
  | 16 => some (readVarint fun v m => { m with makerNotional := v })
  | _ => none

def UserStats.dec (bs : Bytes) : Option UserStats :=
  decodeMsg UserStats.handler {} bs

structure QueryUserStatsResponse where
  stats : Option UserStats := none
deriving DecidableEq

def QueryUserStatsResponse.enc (m : QueryUserStatsResponse) : Bytes :=
  encMsgField 1 (m.stats.map UserStats.enc)

def QueryUserStatsResponse.handler : Handler QueryUserStatsResponse
  | 10 => some (readSub UserStats.dec fun s m => { m with stats := some s })
  | _ => none

def QueryUserStatsResponse.dec (bs : Bytes) : Option QueryUserStatsResponse :=
  decodeMsg QueryUserStatsResponse.handler {} bs

end StatsModule

namespace BankModule

structure QueryAllBalancesRequest where
  address : Bytes := []
  pagination : Option PageRequest := none
deriving DecidableEq

def QueryAllBalancesRequest.enc (m : QueryAllBalancesRequest) : Bytes :=
  encLenField 1 m.address ++ encMsgField 2 (m.pagination.map PageRequest.enc)

def QueryAllBalancesRequest.handler : Handler QueryAllBalancesRequest
  | 10 => some (readLen fun s m => { m with address := s })
  | 18 => some (readSub PageRequest.dec fun p m => { m with pagination := some p })
  | _ => none

def QueryAllBalancesRequest.dec (bs : Bytes) : Option QueryAllBalancesRequest :=
  decodeMsg QueryAllBalancesRequest.handler {} bs

theorem queryAllBalancesRequest_dec_enc (m : QueryAllBalancesRequest) :
    QueryAllBalancesRequest.dec (QueryAllBalancesRequest.enc m) = some m := by
  obtain ⟨a, p⟩ := m
  refine decodeMsg_of_fuel QueryAllBalancesRequest.handler _
    ((if a = [] then 0 else 1) + ((if p.isSome then 1 else 0) + 0)) {} _ ?_ ?_
  · have h1 := encLenField_fuel_le 1 a
    have h2 := encMsgField_fuel_le 2 (p.map PageRequest.enc)
    have hiso : (p.map PageRequest.enc).isSome = p.isSome := Option.isSome_map ..
    rw [hiso] at h2
    simp only [QueryAllBalancesRequest.enc, List.length_append]
    omega
  · have hshape : QueryAllBalancesRequest.enc ⟨a, p⟩
        = encLenField 1 a ++ (encMsgField 2 (p.map PageRequest.enc) ++ []) := by
      simp [QueryAllBalancesRequest.enc]
    rw [hshape, decodeLoop_encLenField QueryAllBalancesRequest.handler 1 _ rfl,
      decodeLoop_encMsgField QueryAllBalancesRequest.handler 2 PageRequest.dec
        PageRequest.enc _ rfl PageRequest.pageRequest_dec_enc,
      decodeLoop_nil]
    by_cases ha : a = [] <;> cases p <;> simp [ha]

structure QueryBalanceRequest where
  address : Bytes := []
  denom : Bytes := []
deriving DecidableEq

def QueryBalanceRequest.enc (m : QueryBalanceRequest) : Bytes :=
  encLenField 1 m.address ++ encLenField 2 m.denom

def QueryBalanceRequest.handler : Handler QueryBalanceRequest
  | 10 => some (readLen fun s m => { m with address := s })
  | 18 => some (readLen fun s m => { m with denom := s })
  | _ => none

def QueryBalanceRequest.dec (bs : Bytes) : Option QueryBalanceRequest :=
  decodeMsg QueryBalanceRequest.handler {} bs

theorem queryBalanceRequest_dec_enc (m : QueryBalanceRequest) :
    QueryBalanceRequest.dec (QueryBalanceRequest.enc m) = some m := by
  obtain ⟨a, d⟩ := m
  refine decodeMsg_of_fuel QueryBalanceRequest.handler _
    ((if a = [] then 0 else 1) + ((if d = [] then 0 else 1) + 0)) {} _ ?_ ?_
  · have h1 := encLenField_fuel_le 1 a
    have h2 := encLenField_fuel_le 2 d
    simp only [QueryBalanceRequest.enc, List.length_append]
    omega
  · have hshape : QueryBalanceRequest.enc ⟨a, d⟩
        = encLenField 1 a ++ (encLenField 2 d ++ []) := by
      simp [QueryBalanceRequest.enc]
    rw [hshape, decodeLoop_encLenField QueryBalanceRequest.handler 1 _ rfl,
      decodeLoop_encLenField QueryBalanceRequest.handler 2 _ rfl,
      decodeLoop_nil]
    by_cases ha : a = [] <;> by_cases hd : d = [] <;> simp [ha, hd]

structure QueryAllBalancesResponse where
  balances : List Coin := []
  pagination : Option Bytes := none
deriving DecidableEq

def QueryAllBalancesResponse.handler : Handler QueryAllBalancesResponse
  | 10 => some (readSub Coin.dec fun c m => { m with balances := m.balances ++ [c] })
  | 18 => some (readLen fun s m => { m with pagination := some s })
  | _ => none

def QueryAllBalancesResponse.dec (bs : Bytes) : Option QueryAllBalancesResponse :=
  decodeMsg QueryAllBalancesResponse.handler {} bs

structure QueryBalanceResponse where
  balance : Option Coin := none
deriving DecidableEq

def QueryBalanceResponse.enc (m : QueryBalanceResponse) : Bytes :=
  encMsgField 1 (m.balance.map Coin.enc)

def QueryBalanceResponse.handler : Handler QueryBalanceResponse
  | 10 => some (readSub Coin.dec fun c m => { m with balance := some c })
  | _ => none

def QueryBalanceResponse.dec (bs : Bytes) : Option QueryBalanceResponse :=
  decodeMsg QueryBalanceResponse.handler {} bs

end BankModule

namespace AuthModule

structure QueryAccountRequest where
  address : Bytes := []
deriving DecidableEq

def QueryAccountRequest.enc (m : QueryAccountRequest) : Bytes :=
  encLenField 1 m.address

def QueryAccountRequest.handler : Handler QueryAccountRequest
  | 10 => some (readLen fun s m => { m with address := s })
  | _ => none

def QueryAccountRequest.dec (bs : Bytes) : Option QueryAccountRequest :=
  decodeMsg QueryAccountRequest.handler {} bs

theorem queryAccountRequest_dec_enc (m : QueryAccountRequest) :
    QueryAccountRequest.dec (QueryAccountRequest.enc m) = some m := by
  obtain ⟨a⟩ := m
  refine decodeMsg_of_fuel QueryAccountRequest.handler _
    ((if a = [] then 0 else 1) + 0) {} _ ?_ ?_
  · have h1 := encLenField_fuel_le 1 a
    simp only [QueryAccountRequest.enc]
    omega
  · have hshape : QueryAccountRequest.enc ⟨a⟩ = encLenField 1 a ++ [] := by
      simp [QueryAccountRequest.enc]
    rw [hshape, decodeLoop_encLenField QueryAccountRequest.handler 1 _ rfl,
      decodeLoop_nil]
    by_cases ha : a = [] <;> simp [ha]

structure QueryAccountResponse where
  account : Option Any := none
deriving DecidableEq

def QueryAccountResponse.enc (m : QueryAccountResponse) : Bytes :=
  encMsgField 1 (m.account.map Any.enc)

def QueryAccountResponse.handler : Handler QueryAccountResponse
  | 10 => some (readSub Any.dec fun a m => { m with account := some a })
  | _ => none

def QueryAccountResponse.dec (bs : Bytes) : Option QueryAccountResponse :=
  decodeMsg QueryAccountResponse.handler {} bs

end AuthModule

namespace SubaccountsModule

structure QueryAllSubaccountRequest where
  pagination : Option PageRequest := none
deriving DecidableEq

def QueryAllSubaccountRequest.enc (m : QueryAllSubaccountRequest) : Bytes :=
  encMsgField 1 (m.pagination.map PageRequest.enc)

def QueryAllSubaccountRequest.handler : Handler QueryAllSubaccountRequest
  | 10 => some (readSub PageRequest.dec fun p m => { m with pagination := some p })
  | _ => none

def QueryAllSubaccountRequest.dec (bs : Bytes) : Option QueryAllSubaccountRequest :=
  decodeMsg QueryAllSubaccountRequest.handler {} bs

theorem queryAllSubaccountRequest_dec_enc (m : QueryAllSubaccountRequest) :
    QueryAllSubaccountRequest.dec (QueryAllSubaccountRequest.enc m) = some m := by
  obtain ⟨p⟩ := m
  refine decodeMsg_of_fuel QueryAllSubaccountRequest.handler _
    ((if p.isSome then 1 else 0) + 0) {} _ ?_ ?_
  · have h1 := encMsgField_fuel_le 1 (p.map PageRequest.enc)
    have hiso : (p.map PageRequest.enc).isSome = p.isSome := Option.isSome_map ..
    rw [hiso] at h1
    simp only [QueryAllSubaccountRequest.enc]
    omega
  · have hshape : QueryAllSubaccountRequest.enc ⟨p⟩
        = encMsgField 1 (p.map PageRequest.enc) ++ [] := by
      simp [QueryAllSubaccountRequest.enc]
    rw [hshape,
      decodeLoop_encMsgField QueryAllSubaccountRequest.handler 1 PageRequest.dec
        PageRequest.enc _ rfl PageRequest.pageRequest_dec_enc,
      decodeLoop_nil]
    cases p <;> simp

structure QueryGetSubaccountRequest where
  owner : Bytes := []
  number : Nat := 0
deriving DecidableEq

def QueryGetSubaccountRequest.enc (m : QueryGetSubaccountRequest) : Bytes :=
  encLenField 1 m.owner ++ encVarintField 2 m.number

def QueryGetSubaccountRequest.handler : Handler QueryGetSubaccountRequest
  | 10 => some (readLen fun s m => { m with owner := s })
  | 16 => some (readVarint fun v m => { m with number := v })
  | _ => none

def QueryGetSubaccountRequest.dec (bs : Bytes) : Option QueryGetSubaccountRequest :=
  decodeMsg QueryGetSubaccountRequest.handler {} bs

theorem queryGetSubaccountRequest_dec_enc (m : QueryGetSubaccountRequest) :
    QueryGetSubaccountRequest.dec (QueryGetSubaccountRequest.enc m) = some m := by
  obtain ⟨o, n⟩ := m
  refine decodeMsg_of_fuel QueryGetSubaccountRequest.handler _
    ((if o = [] then 0 else 1) + ((if n = 0 then 0 else 1) + 0)) {} _ ?_ ?_
  · have h1 := encLenField_fuel_le 1 o
    have h2 := encVarintField_fuel_le 2 n
    simp only [QueryGetSubaccountRequest.enc, List.length_append]
    omega
  · have hshape : QueryGetSubaccountRequest.enc ⟨o, n⟩
        = encLenField 1 o ++ (encVarintField 2 n ++ []) := by
      simp [QueryGetSubaccountRequest.enc]
    rw [hshape, decodeLoop_encLenField QueryGetSubaccountRequest.handler 1 _ rfl,
      decodeLoop_encVarintField QueryGetSubaccountRequest.handler 2 _ rfl,
      decodeLoop_nil]
    by_cases ho : o = [] <;> by_cases hn : n = 0 <;> simp [ho, hn]

structure QuerySubaccountAllResponse where
  subaccount : List Bytes := []
  pagination : Option Bytes := none
deriving DecidableEq

def QuerySubaccountAllResponse.handler : Handler QuerySubaccountAllResponse
  | 10 => some (readLen fun s m => { m with subaccount := m.subaccount ++ [s] })
  | 18 => some (readLen fun s m => { m with pagination := some s })
  | _ => none

def QuerySubaccountAllResponse.dec (bs : Bytes) : Option QuerySubaccountAllResponse :=
  decodeMsg QuerySubaccountAllResponse.handler {} bs

structure QuerySubaccountResponse where
  subaccount : Option Bytes := none
deriving DecidableEq

def QuerySubaccountResponse.handler : Handler QuerySubaccountResponse
  | 10 => some (readLen fun s m => { m with subaccount := some s })
  | _ => none

def QuerySubaccountResponse.dec (bs : Bytes) : Option QuerySubaccountResponse :=
  decodeMsg QuerySubaccountResponse.handler {} bs

end SubaccountsModule

namespace RewardsModule

structure QueryParamsRequest where
deriving DecidableEq

def QueryParamsRequest.enc (_ : QueryParamsRequest) : Bytes := []

def QueryParamsRequest.handler : Handler QueryParamsRequest := fun _ => none

def QueryParamsRequest.dec (bs : Bytes) : Option QueryParamsRequest :=
  decodeMsg QueryParamsRequest.handler {} bs

theorem queryParamsRequest_dec_enc (m : QueryParamsRequest) :
    QueryParamsRequest.dec (QueryParamsRequest.enc m) = some m := by
  obtain ⟨⟩ := m
  rfl

structure QueryParamsResponse where
  params : Option Bytes := none
deriving DecidableEq

def QueryParamsResponse.handler : Handler QueryParamsResponse
  | 10 => some (readLen fun s m => { m with params := some s })
  | _ => none

def QueryParamsResponse.dec (bs : Bytes) : Option QueryParamsResponse :=
  decodeMsg QueryParamsResponse.handler {} bs

end RewardsModule

namespace ClobModule

structure QueryAllClobPairRequest where
  pagination : Option PageRequest := none
deriving DecidableEq

def QueryAllClobPairRequest.enc (m : QueryAllClobPairRequest) : Bytes :=
  encMsgField 1 (m.pagination.map PageRequest.enc)

def QueryAllClobPairRequest.handler : Handler QueryAllClobPairRequest
  | 10 => some (readSub PageRequest.dec fun p m => { m with pagination := some p })
  | _ => none

def QueryAllClobPairRequest.dec (bs : Bytes) : Option QueryAllClobPairRequest :=
  decodeMsg QueryAllClobPairRequest.handler {} bs

theorem queryAllClobPairRequest_dec_enc (m : QueryAllClobPairRequest) :
    QueryAllClobPairRequest.dec (QueryAllClobPairRequest.enc m) = some m := by
  obtain ⟨p⟩ := m
  refine decodeMsg_of_fuel QueryAllClobPairRequest.handler _
    ((if p.isSome then 1 else 0) + 0) {} _ ?_ ?_
  · have h1 := encMsgField_fuel_le 1 (p.map PageRequest.enc)
    have hiso : (p.map PageRequest.enc).isSome = p.isSome := Option.isSome_map ..
    rw [hiso] at h1
    simp only [QueryAllClobPairRequest.enc]
    omega
  · have hshape : QueryAllClobPairRequest.enc ⟨p⟩
        = encMsgField 1 (p.map PageRequest.enc) ++ [] := by
      simp [QueryAllClobPairRequest.enc]
    rw [hshape,
      decodeLoop_encMsgField QueryAllClobPairRequest.handler 1 PageRequest.dec
        PageRequest.enc _ rfl PageRequest.pageRequest_dec_enc,
      decodeLoop_nil]
    cases p <;> simp

structure QueryGetClobPairRequest where
  id : Nat := 0
deriving DecidableEq

def QueryGetClobPairRequest.enc (m : QueryGetClobPairRequest) : Bytes :=
  encVarintField 1 m.id

def QueryGetClobPairRequest.handler : Handler QueryGetClobPairRequest
  | 8 => some (readVarint fun v m => { m with id := v })
  | _ => none

def QueryGetClobPairRequest.dec (bs : Bytes) : Option QueryGetClobPairRequest :=
  decodeMsg QueryGetClobPairRequest.handler {} bs

theorem queryGetClobPairRequest_dec_enc (m : QueryGetClobPairRequest) :
    QueryGetClobPairRequest.dec (QueryGetClobPairRequest.enc m) = some m := by
  obtain ⟨i⟩ := m
  refine decodeMsg_of_fuel QueryGetClobPairRequest.handler _
    ((if i = 0 then 0 else 1) + 0) {} _ ?_ ?_
  · have h1 := encVarintField_fuel_le 1 i
    simp only [QueryGetClobPairRequest.enc]
    omega
  · have hshape : QueryGetClobPairRequest.enc ⟨i⟩ = encVarintField 1 i ++ [] := by
      simp [QueryGetClobPairRequest.enc]
    rw [hshape, decodeLoop_encVarintField QueryGetClobPairRequest.handler 1 _ rfl,
      decodeLoop_nil]
    by_cases hi : i = 0 <;> simp [hi]

structure QueryClobPairAllResponse where
  clobPair : List Bytes := []
  pagination : Option Bytes := none
deriving DecidableEq

def QueryClobPairAllResponse.handler : Handler QueryClobPairAllResponse
  | 10 => some (readLen fun s m => { m with clobPair := m.clobPair ++ [s] })
  | 18 => some (readLen fun s m => { m with pagination := some s })
  | _ => none

def QueryClobPairAllResponse.dec (bs : Bytes) : Option QueryClobPairAllResponse :=
  decodeMsg QueryClobPairAllResponse.handler {} bs

structure QueryClobPairResponse where
  clobPair : Option Bytes := none
deriving DecidableEq

def QueryClobPairResponse.handler : Handler QueryClobPairResponse
  | 10 => some (readLen fun s m => { m with clobPair := some s })
  | _ => none

def QueryClobPairResponse.dec (bs : Bytes) : Option QueryClobPairResponse :=
  decodeMsg QueryClobPairResponse.handler {} bs

structure QueryEquityTierLimitConfigurationRequest where
deriving DecidableEq

def QueryEquityTierLimitConfigurationRequest.enc
    (_ : QueryEquityTierLimitConfigurationRequest) : Bytes := []

def QueryEquityTierLimitConfigurationRequest.handler :
    Handler QueryEquityTierLimitConfigurationRequest := fun _ => none

def QueryEquityTierLimitConfigurationRequest.dec (bs : Bytes) :
    Option QueryEquityTierLimitConfigurationRequest :=
  decodeMsg QueryEquityTierLimitConfigurationRequest.handler {} bs

theorem queryEquityTierLimitConfigurationRequest_dec_enc
    (m : QueryEquityTierLimitConfigurationRequest) :
    QueryEquityTierLimitConfigurationRequest.dec
      (QueryEquityTierLimitConfigurationRequest.enc m) = some m := by
  obtain ⟨⟩ := m
  rfl

structure QueryEquityTierLimitConfigurationResponse where
  equityTierLimitConfig : Option Bytes := none
deriving DecidableEq

def QueryEquityTierLimitConfigurationResponse.handler :
    Handler QueryEquityTierLimitConfigurationResponse
  | 10 => some (readLen fun s m => { m with equityTierLimitConfig := some s })
  | _ => none

def QueryEquityTierLimitConfigurationResponse.dec (bs : Bytes) :
    Option QueryEquityTierLimitConfigurationResponse :=
  decodeMsg QueryEquityTierLimitConfigurationResponse.handler {} bs

end ClobModule

namespace PricesModule

structure QueryAllMarketPricesRequest where
  pagination : Option PageRequest := none
deriving DecidableEq

def QueryAllMarketPricesRequest.enc (m : QueryAllMarketPricesRequest) : Bytes :=
  encMsgField 1 (m.pagination.map PageRequest.enc)

def QueryAllMarketPricesRequest.handler : Handler QueryAllMarketPricesRequest
  | 10 => some (readSub PageRequest.dec fun p m => { m with pagination := some p })
  | _ => none

def QueryAllMarketPricesRequest.dec (bs : Bytes) : Option QueryAllMarketPricesRequest :=
  decodeMsg QueryAllMarketPricesRequest.handler {} bs

theorem queryAllMarketPricesRequest_dec_enc (m : QueryAllMarketPricesRequest) :
    QueryAllMarketPricesRequest.dec (QueryAllMarketPricesRequest.enc m) = some m := by
  obtain ⟨p⟩ := m
  refine decodeMsg_of_fuel QueryAllMarketPricesRequest.handler _
    ((if p.isSome then 1 else 0) + 0) {} _ ?_ ?_
  · have h1 := encMsgField_fuel_le 1 (p.map PageRequest.enc)
    have hiso : (p.map PageRequest.enc).isSome = p.isSome := Option.isSome_map ..
    rw [hiso] at h1
    simp only [QueryAllMarketPricesRequest.enc]
    omega
  · have hshape : QueryAllMarketPricesRequest.enc ⟨p⟩
        = encMsgField 1 (p.map PageRequest.enc) ++ [] := by
      simp [QueryAllMarketPricesRequest.enc]
    rw [hshape,
      decodeLoop_encMsgField QueryAllMarketPricesRequest.handler 1 PageRequest.dec
        PageRequest.enc _ rfl PageRequest.pageRequest_dec_enc,
      decodeLoop_nil]
    cases p <;> simp

structure QueryMarketPriceRequest where
  id : Nat := 0
deriving DecidableEq

def QueryMarketPriceRequest.enc (m : QueryMarketPriceRequest) : Bytes :=
  encVarintField 1 m.id

def QueryMarketPriceRequest.handler : Handler QueryMarketPriceRequest
  | 8 => some (readVarint fun v m => { m with id := v })
  | _ => none

def QueryMarketPriceRequest.dec (bs : Bytes) : Option QueryMarketPriceRequest :=
  decodeMsg QueryMarketPriceRequest.handler {} bs

theorem queryMarketPriceRequest_dec_enc (m : QueryMarketPriceRequest) :
    QueryMarketPriceRequest.dec (QueryMarketPriceRequest.enc m) = some m := by
  obtain ⟨i⟩ := m
  refine decodeMsg_of_fuel QueryMarketPriceRequest.handler _
    ((if i = 0 then 0 else 1) + 0) {} _ ?_ ?_
  · have h1 := encVarintField_fuel_le 1 i
    simp only [QueryMarketPriceRequest.enc]
    omega
  · have hshape : QueryMarketPriceRequest.enc ⟨i⟩ = encVarintField 1 i ++ [] := by
      simp [QueryMarketPriceRequest.enc]
    rw [hshape, decodeLoop_encVarintField QueryMarketPriceRequest.handler 1 _ rfl,
      decodeLoop_nil]
    by_cases hi : i = 0 <;> simp [hi]

structure QueryAllMarketPricesResponse where
  marketPrices : List Bytes := []
  pagination : Option Bytes := none
deriving DecidableEq

def QueryAllMarketPricesResponse.handler : Handler QueryAllMarketPricesResponse
  | 10 => some (readLen fun s m => { m with marketPrices := m.marketPrices ++ [s] })
  | 18 => some (readLen fun s m => { m with pagination := some s })
  | _ => none

def QueryAllMarketPricesResponse.dec (bs : Bytes) : Option QueryAllMarketPricesResponse :=
  decodeMsg QueryAllMarketPricesResponse.handler {} bs

structure QueryMarketPriceResponse where
  marketPrice : Option Bytes := none
deriving DecidableEq

def QueryMarketPriceResponse.handler : Handler QueryMarketPriceResponse
  | 10 => some (readLen fun s m => { m with marketPrice := some s })
  | _ => none

def QueryMarketPriceResponse.dec (bs : Bytes) : Option QueryMarketPriceResponse :=
  decodeMsg QueryMarketPriceResponse.handler {} bs

end PricesModule

namespace PerpetualsModule

structure QueryAllPerpetualsRequest where
  pagination : Option PageRequest := none
deriving DecidableEq

def QueryAllPerpetualsRequest.enc (m : QueryAllPerpetualsRequest) : Bytes :=
  encMsgField 1 (m.pagination.map PageRequest.enc)

def QueryAllPerpetualsRequest.handler : Handler QueryAllPerpetualsRequest
  | 10 => some (readSub PageRequest.dec fun p m => { m with pagination := some p })
  | _ => none

def QueryAllPerpetualsRequest.dec (bs : Bytes) : Option QueryAllPerpetualsRequest :=
  decodeMsg QueryAllPerpetualsRequest.handler {} bs

theorem queryAllPerpetualsRequest_dec_enc (m : QueryAllPerpetualsRequest) :
    QueryAllPerpetualsRequest.dec (QueryAllPerpetualsRequest.enc m) = some m := by
  obtain ⟨p⟩ := m
  refine decodeMsg_of_fuel QueryAllPerpetualsRequest.handler _
    ((if p.isSome then 1 else 0) + 0) {} _ ?_ ?_
  · have h1 := encMsgField_fuel_le 1 (p.map PageRequest.enc)
    have hiso : (p.map PageRequest.enc).isSome = p.isSome := Option.isSome_map ..
    rw [hiso] at h1
    simp only [QueryAllPerpetualsRequest.enc]
    omega
  · have hshape : QueryAllPerpetualsRequest.enc ⟨p⟩
        = encMsgField 1 (p.map PageRequest.enc) ++ [] := by
      simp [QueryAllPerpetualsRequest.enc]
    rw [hshape,
      decodeLoop_encMsgField QueryAllPerpetualsRequest.handler 1 PageRequest.dec
        PageRequest.enc _ rfl PageRequest.pageRequest_dec_enc,
      decodeLoop_nil]
    cases p <;> simp

structure QueryPerpetualRequest where
  id : Nat := 0
deriving DecidableEq

def QueryPerpetualRequest.enc (m : QueryPerpetualRequest) : Bytes :=
  encVarintField 1 m.id

def QueryPerpetualRequest.handler : Handler QueryPerpetualRequest
  | 8 => some (readVarint fun v m => { m with id := v })
  | _ => none

def QueryPerpetualRequest.dec (bs : Bytes) : Option QueryPerpetualRequest :=
  decodeMsg QueryPerpetualRequest.handler {} bs

theorem queryPerpetualRequest_dec_enc (m : QueryPerpetualRequest) :
    QueryPerpetualRequest.dec (QueryPerpetualRequest.enc m) = some m := by
  obtain ⟨i⟩ := m
  refine decodeMsg_of_fuel QueryPerpetualRequest.handler _
    ((if i = 0 then 0 else 1) + 0) {} _ ?_ ?_
  · have h1 := encVarintField_fuel_le 1 i
    simp only [QueryPerpetualRequest.enc]
    omega
  · have hshape : QueryPerpetualRequest.enc ⟨i⟩ = encVarintField 1 i ++ [] := by
      simp [QueryPerpetualRequest.enc]
    rw [hshape, decodeLoop_encVarintField QueryPerpetualRequest.handler 1 _ rfl,
      decodeLoop_nil]
    by_cases hi : i = 0 <;> simp [hi]

structure QueryAllPerpetualsResponse where
  perpetual : List Bytes := []
  pagination : Option Bytes := none
deriving DecidableEq

def QueryAllPerpetualsResponse.handler : Handler QueryAllPerpetualsResponse
  | 10 => some (readLen fun s m => { m with perpetual := m.perpetual ++ [s] })
  | 18 => some (readLen fun s m => { m with pagination := some s })
  | _ => none

def QueryAllPerpetualsResponse.dec (bs : Bytes) : Option QueryAllPerpetualsResponse :=
  decodeMsg QueryAllPerpetualsResponse.handler {} bs

structure QueryPerpetualResponse where
  perpetual : Option Bytes := none
deriving DecidableEq

def QueryPerpetualResponse.handler : Handler QueryPerpetualResponse
  | 10 => some (readLen fun s m => { m with perpetual := some s })
  | _ => none

def QueryPerpetualResponse.dec (bs : Bytes) : Option QueryPerpetualResponse :=
  decodeMsg QueryPerpetualResponse.handler {} bs

end PerpetualsModule

namespace StakingModule

structure QueryDelegatorDelegationsRequest where
  delegatorAddr : Bytes := []
  pagination : Option PageRequest := none
deriving DecidableEq

def QueryDelegatorDelegationsRequest.enc (m : QueryDelegatorDelegationsRequest) : Bytes :=
  encLenField 1 m.delegatorAddr ++ encMsgField 2 (m.pagination.map PageRequest.enc)

def QueryDelegatorDelegationsRequest.handler : Handler QueryDelegatorDelegationsRequest
  | 10 => some (readLen fun s m => { m with delegatorAddr := s })
  | 18 => some (readSub PageRequest.dec fun p m => { m with pagination := some p })
  | _ => none

def QueryDelegatorDelegationsRequest.dec (bs : Bytes) :
    Option QueryDelegatorDelegationsRequest :=
  decodeMsg QueryDelegatorDelegationsRequest.handler {} bs

theorem queryDelegatorDelegationsRequest_dec_enc (m : QueryDelegatorDelegationsRequest) :
    QueryDelegatorDelegationsRequest.dec (QueryDelegatorDelegationsRequest.enc m)
      = some m := by
  obtain ⟨a, p⟩ := m
  refine decodeMsg_of_fuel QueryDelegatorDelegationsRequest.handler _
    ((if a = [] then 0 else 1) + ((if p.isSome then 1 else 0) + 0)) {} _ ?_ ?_
  · have h1 := encLenField_fuel_le 1 a
    have h2 := encMsgField_fuel_le 2 (p.map PageRequest.enc)
    have hiso : (p.map PageRequest.enc).isSome = p.isSome := Option.isSome_map ..
    rw [hiso] at h2
    simp only [QueryDelegatorDelegationsRequest.enc, List.length_append]
    omega
  · have hshape : QueryDelegatorDelegationsRequest.enc ⟨a, p⟩
        = encLenField 1 a ++ (encMsgField 2 (p.map PageRequest.enc) ++ []) := by
      simp [QueryDelegatorDelegationsRequest.enc]
    rw [hshape, decodeLoop_encLenField QueryDelegatorDelegationsRequest.handler 1 _ rfl,
      decodeLoop_encMsgField QueryDelegatorDelegationsRequest.handler 2 PageRequest.dec
        PageRequest.enc _ rfl PageRequest.pageRequest_dec_enc,
      decodeLoop_nil]
    by_cases ha : a = [] <;> cases p <;> simp [ha]

structure QueryDelegatorUnbondingDelegationsRequest where
  delegatorAddr : Bytes := []
  pagination : Option PageRequest := none
deriving DecidableEq

def QueryDelegatorUnbondingDelegationsRequest.enc
    (m : QueryDelegatorUnbondingDelegationsRequest) : Bytes :=
  encLenField 1 m.delegatorAddr ++ encMsgField 2 (m.pagination.map PageRequest.enc)

def QueryDelegatorUnbondingDelegationsRequest.handler :
    Handler QueryDelegatorUnbondingDelegationsRequest
  | 10 => some (readLen fun s m => { m with delegatorAddr := s })
  | 18 => some (readSub PageRequest.dec fun p m => { m with pagination := some p })
  | _ => none

def QueryDelegatorUnbondingDelegationsRequest.dec (bs : Bytes) :
    Option QueryDelegatorUnbondingDelegationsRequest :=
  decodeMsg QueryDelegatorUnbondingDelegationsRequest.handler {} bs

theorem queryDelegatorUnbondingDelegationsRequest_dec_enc
    (m : QueryDelegatorUnbondingDelegationsRequest) :
    QueryDelegatorUnbondingDelegationsRequest.dec
      (QueryDelegatorUnbondingDelegationsRequest.enc m) = some m := by
  obtain ⟨a, p⟩ := m
  refine decodeMsg_of_fuel QueryDelegatorUnbondingDelegationsRequest.handler _
    ((if a = [] then 0 else 1) + ((if p.isSome then 1 else 0) + 0)) {} _ ?_ ?_
  · have h1 := encLenField_fuel_le 1 a
    have h2 := encMsgField_fuel_le 2 (p.map PageRequest.enc)
    have hiso : (p.map PageRequest.enc).isSome = p.isSome := Option.isSome_map ..
    rw [hiso] at h2
    simp only [QueryDelegatorUnbondingDelegationsRequest.enc, List.length_append]
    omega
  · have hshape : QueryDelegatorUnbondingDelegationsRequest.enc ⟨a, p⟩
        = encLenField 1 a ++ (encMsgField 2 (p.map PageRequest.enc) ++ []) := by
      simp [QueryDelegatorUnbondingDelegationsRequest.enc]
    rw [hshape,
      decodeLoop_encLenField QueryDelegatorUnbondingDelegationsRequest.handler 1 _ rfl,
      decodeLoop_encMsgField QueryDelegatorUnbondingDelegationsRequest.handler 2
        PageRequest.dec PageRequest.enc _ rfl PageRequest.pageRequest_dec_enc,
      decodeLoop_nil]
    by_cases ha : a = [] <;> cases p <;> simp [ha]

structure QueryValidatorsRequest where
  status : Bytes := []
  pagination : Option PageRequest := none
deriving DecidableEq

def QueryValidatorsRequest.enc (m : QueryValidatorsRequest) : Bytes :=
  encLenField 1 m.status ++ encMsgField 2 (m.pagination.map PageRequest.enc)

def QueryValidatorsRequest.handler : Handler QueryValidatorsRequest
  | 10 => some (readLen fun s m => { m with status := s })
  | 18 => some (readSub PageRequest.dec fun p m => { m with pagination := some p })
  | _ => none

def QueryValidatorsRequest.dec (bs : Bytes) : Option QueryValidatorsRequest :=
  decodeMsg QueryValidatorsRequest.handler {} bs

theorem queryValidatorsRequest_dec_enc (m : QueryValidatorsRequest) :
    QueryValidatorsRequest.dec (QueryValidatorsRequest.enc m) = some m := by
  obtain ⟨s, p⟩ := m
  refine decodeMsg_of_fuel QueryValidatorsRequest.handler _
    ((if s = [] then 0 else 1) + ((if p.isSome then 1 else 0) + 0)) {} _ ?_ ?_
  · have h1 := encLenField_fuel_le 1 s
    have h2 := encMsgField_fuel_le 2 (p.map PageRequest.enc)
    have hiso : (p.map PageRequest.enc).isSome = p.isSome := Option.isSome_map ..
    rw [hiso] at h2
    simp only [QueryValidatorsRequest.enc, List.length_append]
    omega
  · have hshape : QueryValidatorsRequest.enc ⟨s, p⟩
        = encLenField 1 s ++ (encMsgField 2 (p.map PageRequest.enc) ++ []) := by
      simp [QueryValidatorsRequest.enc]
    rw [hshape, decodeLoop_encLenField QueryValidatorsRequest.handler 1 _ rfl,
      decodeLoop_encMsgField QueryValidatorsRequest.handler 2 PageRequest.dec
        PageRequest.enc _ rfl PageRequest.pageRequest_dec_enc,
      decodeLoop_nil]
    by_cases hs : s = [] <;> cases p <;> simp [hs]

structure QueryDelegatorDelegationsResponse where
  delegationResponses : List Bytes := []
  pagination : Option Bytes := none
deriving DecidableEq

def QueryDelegatorDelegationsResponse.handler : Handler QueryDelegatorDelegationsResponse
  | 10 => some (readLen fun s m =>
      { m with delegationResponses := m.delegationResponses ++ [s] })
  | 18 => some (readLen fun s m => { m with pagination := some s })
  | _ => none

def QueryDelegatorDelegationsResponse.dec (bs : Bytes) :
    Option QueryDelegatorDelegationsResponse :=
  decodeMsg QueryDelegatorDelegationsResponse.handler {} bs

structure QueryDelegatorUnbondingDelegationsResponse where
  unbondingResponses : List Bytes := []
  pagination : Option Bytes := none
deriving DecidableEq

def QueryDelegatorUnbondingDelegationsResponse.handler :
    Handler QueryDelegatorUnbondingDelegationsResponse
  | 10 => some (readLen fun s m =>
      { m with unbondingResponses := m.unbondingResponses ++ [s] })
  | 18 => some (readLen fun s m => { m with pagination := some s })
  | _ => none

def QueryDelegatorUnbondingDelegationsResponse.dec (bs : Bytes) :
    Option QueryDelegatorUnbondingDelegationsResponse :=
  decodeMsg QueryDelegatorUnbondingDelegationsResponse.handler {} bs

structure QueryValidatorsResponse where
  validators : List Bytes := []
  pagination : Option Bytes := none
deriving DecidableEq

def QueryValidatorsResponse.handler : Handler QueryValidatorsResponse
  | 10 => some (readLen fun s m => { m with validators := m.validators ++ [s] })
  | 18 => some (readLen fun s m => { m with pagination := some s })
  | _ => none

def QueryValidatorsResponse.dec (bs : Bytes) : Option QueryValidatorsResponse :=
  decodeMsg QueryValidatorsResponse.handler {} bs

end StakingModule

namespace BridgeModule

structure QueryDelayedCompleteBridgeMessagesRequest where
  address : Bytes := []
deriving DecidableEq

def QueryDelayedCompleteBridgeMessagesRequest.enc
    (m : QueryDelayedCompleteBridgeMessagesRequest) : Bytes :=
  encLenField 1 m.address

def QueryDelayedCompleteBridgeMessagesRequest.handler :
    Handler QueryDelayedCompleteBridgeMessagesRequest
  | 10 => some (readLen fun s m => { m with address := s })
  | _ => none

def QueryDelayedCompleteBridgeMessagesRequest.dec (bs : Bytes) :
    Option QueryDelayedCompleteBridgeMessagesRequest :=
  decodeMsg QueryDelayedCompleteBridgeMessagesRequest.handler {} bs

theorem queryDelayedCompleteBridgeMessagesRequest_dec_enc
    (m : QueryDelayedCompleteBridgeMessagesRequest) :
    QueryDelayedCompleteBridgeMessagesRequest.dec
      (QueryDelayedCompleteBridgeMessagesRequest.enc m) = some m := by
  obtain ⟨a⟩ := m
  refine decodeMsg_of_fuel QueryDelayedCompleteBridgeMessagesRequest.handler _
    ((if a = [] then 0 else 1) + 0) {} _ ?_ ?_
  · have h1 := encLenField_fuel_le 1 a
    simp only [QueryDelayedCompleteBridgeMessagesRequest.enc]
    omega
  · have hshape : QueryDelayedCompleteBridgeMessagesRequest.enc ⟨a⟩
        = encLenField 1 a ++ [] := by
      simp [QueryDelayedCompleteBridgeMessagesRequest.enc]
    rw [hshape,
      decodeLoop_encLenField QueryDelayedCompleteBridgeMessagesRequest.handler 1 _ rfl,
      decodeLoop_nil]
    by_cases ha : a = [] <;> simp [ha]

structure QueryDelayedCompleteBridgeMessagesResponse where
  messages : List Bytes := []
deriving DecidableEq

def QueryDelayedCompleteBridgeMessagesResponse.handler :
    Handler QueryDelayedCompleteBridgeMessagesResponse
  | 10 => some (readLen fun s m => { m with messages := m.messages ++ [s] })
  | _ => none

def QueryDelayedCompleteBridgeMessagesResponse.dec (bs : Bytes) :
    Option QueryDelayedCompleteBridgeMessagesResponse :=
  decodeMsg QueryDelayedCompleteBridgeMessagesResponse.handler {} bs

end BridgeModule

/-! ## Accounts: the type-tagged (`Any`) account envelope -/

/-- The cosmos `BaseAccount` message (address, optional pubkey envelope,
account number, sequence). -/
structure BaseAccount where
  address : Bytes := []
  pubKey : Option Any := none
  accountNumber : Nat := 0
  sequence : Nat := 0
deriving DecidableEq

namespace BaseAccount

def handler : Handler BaseAccount
  | 10 => some (readLen fun s m => { m with address := s })
  | 18 => some (readSub Any.dec fun a m => { m with pubKey := some a })
  | 24 => some (readVarint fun v m => { m with accountNumber := v })
  | 32 => some (readVarint fun v m => { m with sequence := v })
  | _ => none

def dec (bs : Bytes) : Option BaseAccount := decodeMsg handler {} bs

end BaseAccount

/-- The reconstructed account record returned by `accountFromAny`. -/
structure Account where
  address : Bytes := []
  pubkey : Option Any := none
  accountNumber : Nat := 0
  sequence : Nat := 0
deriving DecidableEq

/-- The ASCII bytes of the string "/cosmos.auth.v1beta1.BaseAccount". -/
def baseAccountTypeUrl : Bytes :=
  [47, 99, 111, 115, 109, 111, 115, 46, 97, 117, 116, 104, 46,
   118, 49, 98, 101, 116, 97, 49, 46, 66, 97, 115, 101, 65, 99,
   99, 111, 117, 110, 116]

/-- Errors observable at the gateway boundary.  Transport failures are opaque
values raised by the transport; `unexpectedClientError` is the gateway's own
`UnexpectedClientError` ("unexpected response"); `decodeFailed` models a
protobuf decoding exception; `unknownAccountType` models `accountFromAny`
rejecting an unrecognized type tag. -/
inductive ClientError where
  | transportError (code : Nat)
  | decodeFailed
  | unexpectedClientError
  | unknownAccountType (typeUrl : Bytes)
deriving DecidableEq

/-- Lift a decoder result into the error monad: a malformed payload raises a
decoding error, as the generated protobuf decoders do. -/
def toDecoded {α : Type} : Option α → Except ClientError α
  | some r => .ok r
  | none => .error .decodeFailed

/-- Modelled from the spec: `accountFromAny` (external cosmjs helper) decodes
a type-tagged envelope into a concrete account shape selected by the embedded
type identifier, failing explicitly if the tag is unrecognized. -/
def accountFromAny (raw : Any) : Except ClientError Account :=
  if raw.typeUrl = baseAccountTypeUrl then
    match BaseAccount.dec raw.value with
    | some acc => .ok { address := acc.address, pubkey := acc.pubKey,
                        accountNumber := acc.accountNumber, sequence := acc.sequence }
    | none => .error .decodeFailed
  else .error (.unknownAccountType raw.typeUrl)

/-- A block header (only the height is relevant to this gateway). -/
structure BlockHeader where
  height : Nat := 0
deriving DecidableEq

/-- A committed block, as returned by the block-tip boundary. -/
structure Block where
  header : BlockHeader := {}
deriving DecidableEq

/-- Modelled from the spec: the block-tip boundary — one operation returning
the latest committed block (or a transport failure). -/
structure TendermintClient where
  getBlock : Except ClientError Block

/-- The transport boundary: one operation
`queryUnverified(path, requestBytes) -> responseBytes` which may raise a
transport error. -/
structure StargateQueryClient where
  queryUnverified : String → Bytes → Except ClientError Bytes

/-- One observable outgoing call made by the gateway: either a block-tip
round-trip or a generic query-transport round-trip. -/
inductive TraceEvent where
  | blockCall
  | queryCall (requestUrl : String) (requestData : Bytes)
deriving DecidableEq

/-- The query gateway: a Tendermint client for the block-tip boundary and a
Stargate query client for the generic query transport. -/
structure Get where
  tendermintClient : TendermintClient
  stargateQueryClient : StargateQueryClient

namespace Get

/-- The single transport primitive: every query method reduces to one call of
this.  Returns the transport's result together with the emitted call trace. -/
def sendQuery (g : Get) (requestUrl : String) (requestData : Bytes) :
    Except ClientError Bytes × List TraceEvent :=
  (g.stargateQueryClient.queryUnverified requestUrl requestData,
   [.queryCall requestUrl requestData])

/-- Get latest block. -/
def latestBlock (g : Get) : Except ClientError Block × List TraceEvent :=
  (g.tendermintClient.getBlock, [.blockCall])

/-- Get latest block height. -/
def latestBlockHeight (g : Get) : Except ClientError Nat × List TraceEvent :=
  let blockTrace := g.latestBlock
  (blockTrace.1.map fun block => block.header.height, blockTrace.2)

/-- Get all fee tier params. -/
def getFeeTiers (g : Get) :
    Except ClientError FeeTierModule.QueryPerpetualFeeParamsResponse × List TraceEvent :=
  let requestData := FeeTierModule.QueryPerpetualFeeParamsRequest.enc {}
  let res := g.sendQuery "/dydxprotocol.feetiers.Query/PerpetualFeeParams" requestData
  (res.1.bind fun data => toDecoded (FeeTierModule.QueryPerpetualFeeParamsResponse.dec data),
   res.2)

/-- Get fee tier the user belongs to. -/
def getUserFeeTier (g : Get) (address : Bytes) :
    Except ClientError FeeTierModule.QueryUserFeeTierResponse × List TraceEvent :=
  let requestData := FeeTierModule.QueryUserFeeTierRequest.enc { user := address }
  let res := g.sendQuery "/dydxprotocol.feetiers.Query/UserFeeTier" requestData
  (res.1.bind fun data => toDecoded (FeeTierModule.QueryUserFeeTierResponse.dec data),
   res.2)

/-- Get trading stats: the user's taker and maker volume, or an absent value
when the response carries no stats record. -/
def getUserStats (g : Get) (address : Bytes) :
    Except ClientError (Option StatsModule.UserStats) × List TraceEvent :=
  let requestData := StatsModule.QueryUserStatsRequest.enc { user := address }
  let res := g.sendQuery "/dydxprotocol.stats.Query/UserStats" requestData
  (res.1.bind fun data =>
    (toDecoded (StatsModule.QueryUserStatsResponse.dec data)).map (·.stats),
   res.2)

/-- Get all balances for an account. -/
def getAccountBalances (g : Get) (address : Bytes) :
    Except ClientError (List Coin) × List TraceEvent :=
  let requestData := BankModule.QueryAllBalancesRequest.enc { address := address }
  let res := g.sendQuery "/cosmos.bank.v1beta1.Query/AllBalances" requestData
  (res.1.bind fun data =>
    (toDecoded (BankModule.QueryAllBalancesResponse.dec data)).map (·.balances),
   res.2)

/-- Get balances of one denom for an account: the decoded coin, or an absent
value when the response carries no balance entry. -/
def getAccountBalance (g : Get) (address denom : Bytes) :
    Except ClientError (Option Coin) × List TraceEvent :=
  let requestData := BankModule.QueryBalanceRequest.enc { address := address, denom := denom }
  let res := g.sendQuery "/cosmos.bank.v1beta1.Query/Balance" requestData
  (res.1.bind fun data =>
    (toDecoded (BankModule.QueryBalanceResponse.dec data)).map (·.balance),
   res.2)

/-- Get all subaccounts. -/
def getSubaccounts (g : Get) :
    Except ClientError SubaccountsModule.QuerySubaccountAllResponse × List TraceEvent :=
  let requestData := SubaccountsModule.QueryAllSubaccountRequest.enc {}
  let res := g.sendQuery "/dydxprotocol.subaccounts.Query/SubaccountAll" requestData
  (res.1.bind fun data =>
    toDecoded (SubaccountsModule.QuerySubaccountAllResponse.dec data),
   res.2)

/-- Get a specific subaccount for an account. -/
def getSubaccount (g : Get) (address : Bytes) (accountNumber : Nat) :
    Except ClientError SubaccountsModule.QuerySubaccountResponse × List TraceEvent :=
  let requestData := SubaccountsModule.QueryGetSubaccountRequest.enc
    { owner := address, number := accountNumber }
  let res := g.sendQuery "/dydxprotocol.subaccounts.Query/Subaccount" requestData
  (res.1.bind fun data =>
    toDecoded (SubaccountsModule.QuerySubaccountResponse.dec data),
   res.2)

/-- Get the params for the rewards module. -/
def getRewardsParams (g : Get) :
    Except ClientError RewardsModule.QueryParamsResponse × List TraceEvent :=
  let requestData := RewardsModule.QueryParamsRequest.enc {}
  let res := g.sendQuery "/dydxprotocol.rewards.Query/Params" requestData
  (res.1.bind fun data => toDecoded (RewardsModule.QueryParamsResponse.dec data),
   res.2)

/-- Get all Clob Pairs. -/
def getAllClobPairs (g : Get) :
    Except ClientError ClobModule.QueryClobPairAllResponse × List TraceEvent :=
  let requestData := ClobModule.QueryAllClobPairRequest.enc { pagination := some PAGE_REQUEST }
  let res := g.sendQuery "/dydxprotocol.clob.Query/ClobPairAll" requestData
  (res.1.bind fun data => toDecoded (ClobModule.QueryClobPairAllResponse.dec data),
   res.2)

/-- Get Clob Pair for an Id. -/
def getClobPair (g : Get) (pairId : Nat) :
    Except ClientError ClobModule.QueryClobPairResponse × List TraceEvent :=
  let requestData := ClobModule.QueryGetClobPairRequest.enc { id := pairId }
  let res := g.sendQuery "/dydxprotocol.clob.Query/ClobPair" requestData
  (res.1.bind fun data => toDecoded (ClobModule.QueryClobPairResponse.dec data),
   res.2)

/-- Get all Prices across markets. -/
def getAllPrices (g : Get) :
    Except ClientError PricesModule.QueryAllMarketPricesResponse × List TraceEvent :=
  let requestData := PricesModule.QueryAllMarketPricesRequest.enc
    { pagination := some PAGE_REQUEST }
  let res := g.sendQuery "/dydxprotocol.prices.Query/AllMarketPrices" requestData
  (res.1.bind fun data => toDecoded (PricesModule.QueryAllMarketPricesResponse.dec data),
   res.2)

/-- Get Price for a market Id. -/
def getPrice (g : Get) (marketId : Nat) :
    Except ClientError PricesModule.QueryMarketPriceResponse × List TraceEvent :=
  let requestData := PricesModule.QueryMarketPriceRequest.enc { id := marketId }
  let res := g.sendQuery "/dydxprotocol.prices.Query/MarketPrice" requestData
  (res.1.bind fun data => toDecoded (PricesModule.QueryMarketPriceResponse.dec data),
   res.2)

/-- Get all Perpetuals. -/
def getAllPerpetuals (g : Get) :
    Except ClientError PerpetualsModule.QueryAllPerpetualsResponse × List TraceEvent :=
  let requestData := PerpetualsModule.QueryAllPerpetualsRequest.enc
    { pagination := some PAGE_REQUEST }
  let res := g.sendQuery "/dydxprotocol.perpetuals.Query/AllPerpetuals" requestData
  (res.1.bind fun data => toDecoded (PerpetualsModule.QueryAllPerpetualsResponse.dec data),
   res.2)

/-- Get Perpetual for an Id. -/
def getPerpetual (g : Get) (perpetualId : Nat) :
    Except ClientError PerpetualsModule.QueryPerpetualResponse × List TraceEvent :=
  let requestData := PerpetualsModule.QueryPerpetualRequest.enc { id := perpetualId }
  let res := g.sendQuery "/dydxprotocol.perpetuals.Query/Perpetual" requestData
  (res.1.bind fun data => toDecoded (PerpetualsModule.QueryPerpetualResponse.dec data),
   res.2)

/-- Get Account for an address; raises `UnexpectedClientError` if the decoded
response lacks the tagged account field, otherwise reconstructs the account
from the tagged `Any` value via `accountFromAny`. -/
def getAccount (g : Get) (address : Bytes) :
    Except ClientError Account × List TraceEvent :=
  let requestData := AuthModule.QueryAccountRequest.enc { address := address }
  let res := g.sendQuery "/cosmos.auth.v1beta1.Query/Account" requestData
  (res.1.bind fun data =>
    (toDecoded (AuthModule.QueryAccountResponse.dec data)).bind fun resp =>
      match resp.account with
      | none => .error .unexpectedClientError
      | some rawAccount => accountFromAny rawAccount,
   res.2)

/-- Get equity tier limit configuration. -/
def getEquityTierLimitConfiguration (g : Get) :
    Except ClientError ClobModule.QueryEquityTierLimitConfigurationResponse
      × List TraceEvent :=
  let requestData := ClobModule.QueryEquityTierLimitConfigurationRequest.enc {}
  let res := g.sendQuery "/dydxprotocol.clob.Query/EquityTierLimitConfiguration" requestData
  (res.1.bind fun data =>
    toDecoded (ClobModule.QueryEquityTierLimitConfigurationResponse.dec data),
   res.2)

/-- Get all delegations from a delegator. -/
def getDelegatorDelegations (g : Get) (delegatorAddr : Bytes) :
    Except ClientError StakingModule.QueryDelegatorDelegationsResponse × List TraceEvent :=
  let requestData := StakingModule.QueryDelegatorDelegationsRequest.enc
    { delegatorAddr := delegatorAddr, pagination := some PAGE_REQUEST }
  let res := g.sendQuery "/cosmos.staking.v1beta1.Query/DelegatorDelegations" requestData
  (res.1.bind fun data =>
    toDecoded (StakingModule.QueryDelegatorDelegationsResponse.dec data),
   res.2)

/-- Get all unbonding delegations from a delegator. -/
def getDelegatorUnbondingDelegations (g : Get) (delegatorAddr : Bytes) :
    Except ClientError StakingModule.QueryDelegatorUnbondingDelegationsResponse
      × List TraceEvent :=
  let requestData := StakingModule.QueryDelegatorUnbondingDelegationsRequest.enc
    { delegatorAddr := delegatorAddr, pagination := some PAGE_REQUEST }
  let res := g.sendQuery
    "/cosmos.staking.v1beta1.Query/DelegatorUnbondingDelegations" requestData
  (res.1.bind fun data =>
    toDecoded (StakingModule.QueryDelegatorUnbondingDelegationsResponse.dec data),
   res.2)

/-- Get all delayed complete bridge messages, optionally filtered by address. -/
def getDelayedCompleteBridgeMessages (g : Get) (address : Bytes) :
    Except ClientError BridgeModule.QueryDelayedCompleteBridgeMessagesResponse
      × List TraceEvent :=
  let requestData := BridgeModule.QueryDelayedCompleteBridgeMessagesRequest.enc
    { address := address }
  let res := g.sendQuery "/dydxprotocol.bridge.Query/DelayedCompleteBridgeMessages" requestData
  (res.1.bind fun data =>
    toDecoded (BridgeModule.QueryDelayedCompleteBridgeMessagesResponse.dec data),
   res.2)

/-- Get all validators of a status. -/
def getAllValidators (g : Get) (status : Bytes) :
    Except ClientError StakingModule.QueryValidatorsResponse × List TraceEvent :=
  let requestData := StakingModule.QueryValidatorsRequest.enc
    { status := status, pagination := some PAGE_REQUEST }
  let res := g.sendQuery "/cosmos.staking.v1beta1.Query/Validators" requestData
  (res.1.bind fun data => toDecoded (StakingModule.QueryValidatorsResponse.dec data),
   res.2)

end Get

/-! ## Uniform view of the query methods

An enumeration of every query method of `Get` that goes through the generic
`sendQuery` transport, with its typed arguments, used to state the uniform
path/encode/decode, single-call, and purity properties. -/

inductive MethodCall where
  | getFeeTiers
  | getUserFeeTier (address : Bytes)
  | getUserStats (address : Bytes)
  | getAccountBalances (address : Bytes)
  | getAccountBalance (address denom : Bytes)
  | getSubaccounts
  | getSubaccount (address : Bytes) (accountNumber : Nat)
  | getRewardsParams
  | getAllClobPairs
  | getClobPair (pairId : Nat)
  | getAllPrices
  | getPrice (marketId : Nat)
  | getAllPerpetuals
  | getPerpetual (perpetualId : Nat)
  | getAccount (address : Bytes)
  | getEquityTierLimitConfiguration
  | getDelegatorDelegations (delegatorAddr : Bytes)
  | getDelegatorUnbondingDelegations (delegatorAddr : Bytes)
  | getDelayedCompleteBridgeMessages (address : Bytes)
  | getAllValidators (status : Bytes)
deriving DecidableEq

/-- The tagged union of all query-method results. -/
inductive ResponseVal where
  | feeTiers (r : FeeTierModule.QueryPerpetualFeeParamsResponse)
  | userFeeTier (r : FeeTierModule.QueryUserFeeTierResponse)
  | userStats (r : Option StatsModule.UserStats)
  | accountBalances (r : List Coin)
  | accountBalance (r : Option Coin)
  | subaccounts (r : SubaccountsModule.QuerySubaccountAllResponse)
  | subaccount (r : SubaccountsModule.QuerySubaccountResponse)
  | rewardsParams (r : RewardsModule.QueryParamsResponse)
  | allClobPairs (r : ClobModule.QueryClobPairAllResponse)
  | clobPair (r : ClobModule.QueryClobPairResponse)
  | allPrices (r : PricesModule.QueryAllMarketPricesResponse)
  | price (r : PricesModule.QueryMarketPriceResponse)
  | allPerpetuals (r : PerpetualsModule.QueryAllPerpetualsResponse)
  | perpetual (r : PerpetualsModule.QueryPerpetualResponse)
  | account (r : Account)
  | equityTierLimitConfiguration (r : ClobModule.QueryEquityTierLimitConfigurationResponse)
  | delegatorDelegations (r : StakingModule.QueryDelegatorDelegationsResponse)
  | delegatorUnbondingDelegations
      (r : StakingModule.QueryDelegatorUnbondingDelegationsResponse)
  | delayedCompleteBridgeMessages
      (r : BridgeModule.QueryDelayedCompleteBridgeMessagesResponse)
  | validators (r : StakingModule.QueryValidatorsResponse)
deriving DecidableEq

/-- Dispatch a method call against the gateway: the method's result (wrapped
into the tagged union) together with its outgoing-call trace. -/
def runMethod (g : Get) : MethodCall → Except ClientError ResponseVal × List TraceEvent
  | .getFeeTiers =>
    let r := g.getFeeTiers
    (r.1.map ResponseVal.feeTiers, r.2)
  | .getUserFeeTier a =>
    let r := g.getUserFeeTier a
    (r.1.map ResponseVal.userFeeTier, r.2)
  | .getUserStats a =>
    let r := g.getUserStats a
    (r.1.map ResponseVal.userStats, r.2)
  | .getAccountBalances a =>
    let r := g.getAccountBalances a
    (r.1.map ResponseVal.accountBalances, r.2)
  | .getAccountBalance a d =>
    let r := g.getAccountBalance a d
    (r.1.map ResponseVal.accountBalance, r.2)
  | .getSubaccounts =>
    let r := g.getSubaccounts
    (r.1.map ResponseVal.subaccounts, r.2)
  | .getSubaccount a n =>
    let r := g.getSubaccount a n
    (r.1.map ResponseVal.subaccount, r.2)
  | .getRewardsParams =>
    let r := g.getRewardsParams
    (r.1.map ResponseVal.rewardsParams, r.2)
  | .getAllClobPairs =>
    let r := g.getAllClobPairs
    (r.1.map ResponseVal.allClobPairs, r.2)
  | .getClobPair i =>
    let r := g.getClobPair i
    (r.1.map ResponseVal.clobPair, r.2)
  | .getAllPrices =>
    let r := g.getAllPrices
    (r.1.map ResponseVal.allPrices, r.2)
  | .getPrice i =>
    let r := g.getPrice i
    (r.1.map ResponseVal.price, r.2)
  | .getAllPerpetuals =>
    let r := g.getAllPerpetuals
    (r.1.map ResponseVal.allPerpetuals, r.2)
  | .getPerpetual i =>
    let r := g.getPerpetual i
    (r.1.map ResponseVal.perpetual, r.2)
  | .getAccount a =>
    let r := g.getAccount a
    (r.1.map ResponseVal.account, r.2)
  | .getEquityTierLimitConfiguration =>
    let r := g.getEquityTierLimitConfiguration
    (r.1.map ResponseVal.equityTierLimitConfiguration, r.2)
  | .getDelegatorDelegations a =>
    let r := g.getDelegatorDelegations a
    (r.1.map ResponseVal.delegatorDelegations, r.2)
  | .getDelegatorUnbondingDelegations a =>
    let r := g.getDelegatorUnbondingDelegations a
    (r.1.map ResponseVal.delegatorUnbondingDelegations, r.2)
  | .getDelayedCompleteBridgeMessages a =>
    let r := g.getDelayedCompleteBridgeMessages a
    (r.1.map ResponseVal.delayedCompleteBridgeMessages, r.2)
  | .getAllValidators s =>
    let r := g.getAllValidators s
    (r.1.map ResponseVal.validators, r.2)

/-- The fixed RPC path string of each query method. -/
def pathOf : MethodCall → String
  | .getFeeTiers => "/dydxprotocol.feetiers.Query/PerpetualFeeParams"
  | .getUserFeeTier _ => "/dydxprotocol.feetiers.Query/UserFeeTier"
  | .getUserStats _ => "/dydxprotocol.stats.Query/UserStats"
  | .getAccountBalances _ => "/cosmos.bank.v1beta1.Query/AllBalances"
  | .getAccountBalance _ _ => "/cosmos.bank.v1beta1.Query/Balance"
  | .getSubaccounts => "/dydxprotocol.subaccounts.Query/SubaccountAll"
  | .getSubaccount _ _ => "/dydxprotocol.subaccounts.Query/Subaccount"
  | .getRewardsParams => "/dydxprotocol.rewards.Query/Params"
  | .getAllClobPairs => "/dydxprotocol.clob.Query/ClobPairAll"
  | .getClobPair _ => "/dydxprotocol.clob.Query/ClobPair"
  | .getAllPrices => "/dydxprotocol.prices.Query/AllMarketPrices"
  | .getPrice _ => "/dydxprotocol.prices.Query/MarketPrice"
  | .getAllPerpetuals => "/dydxprotocol.perpetuals.Query/AllPerpetuals"
  | .getPerpetual _ => "/dydxprotocol.perpetuals.Query/Perpetual"
  | .getAccount _ => "/cosmos.auth.v1beta1.Query/Account"
  | .getEquityTierLimitConfiguration =>
      "/dydxprotocol.clob.Query/EquityTierLimitConfiguration"
  | .getDelegatorDelegations _ => "/cosmos.staking.v1beta1.Query/DelegatorDelegations"
  | .getDelegatorUnbondingDelegations _ =>
      "/cosmos.staking.v1beta1.Query/DelegatorUnbondingDelegations"
  | .getDelayedCompleteBridgeMessages _ =>
      "/dydxprotocol.bridge.Query/DelayedCompleteBridgeMessages"
  | .getAllValidators _ => "/cosmos.staking.v1beta1.Query/Validators"

/-- The request bytes of each query method: the method's constructed request
message, encoded with the request message type bound to the method's path. -/
def requestDataOf : MethodCall → Bytes
  | .getFeeTiers => FeeTierModule.QueryPerpetualFeeParamsRequest.enc {}
  | .getUserFeeTier a => FeeTierModule.QueryUserFeeTierRequest.enc { user := a }
  | .getUserStats a => StatsModule.QueryUserStatsRequest.enc { user := a }
  | .getAccountBalances a => BankModule.QueryAllBalancesRequest.enc { address := a }
  | .getAccountBalance a d =>
      BankModule.QueryBalanceRequest.enc { address := a, denom := d }
  | .getSubaccounts => SubaccountsModule.QueryAllSubaccountRequest.enc {}
  | .getSubaccount a n =>
      SubaccountsModule.QueryGetSubaccountRequest.enc { owner := a, number := n }
  | .getRewardsParams => RewardsModule.QueryParamsRequest.enc {}
  | .getAllClobPairs =>
      ClobModule.QueryAllClobPairRequest.enc { pagination := some PAGE_REQUEST }
  | .getClobPair i => ClobModule.QueryGetClobPairRequest.enc { id := i }
  | .getAllPrices =>
      PricesModule.QueryAllMarketPricesRequest.enc { pagination := some PAGE_REQUEST }
  | .getPrice i => PricesModule.QueryMarketPriceRequest.enc { id := i }
  | .getAllPerpetuals =>
      PerpetualsModule.QueryAllPerpetualsRequest.enc { pagination := some PAGE_REQUEST }
  | .getPerpetual i => PerpetualsModule.QueryPerpetualRequest.enc { id := i }
  | .getAccount a => AuthModule.QueryAccountRequest.enc { address := a }
  | .getEquityTierLimitConfiguration =>
      ClobModule.QueryEquityTierLimitConfigurationRequest.enc {}
  | .getDelegatorDelegations a => StakingModule.QueryDelegatorDelegationsRequest.enc
      { delegatorAddr := a, pagination := some PAGE_REQUEST }
  | .getDelegatorUnbondingDelegations a =>
      StakingModule.QueryDelegatorUnbondingDelegationsRequest.enc
        { delegatorAddr := a, pagination := some PAGE_REQUEST }
  | .getDelayedCompleteBridgeMessages a =>
      BridgeModule.QueryDelayedCompleteBridgeMessagesRequest.enc { address := a }
  | .getAllValidators s => StakingModule.QueryValidatorsRequest.enc
      { status := s, pagination := some PAGE_REQUEST }

/-- The tagged union of the response message types, one per RPC path. -/
inductive DecodedResponse where
  | feeTiers (r : FeeTierModule.QueryPerpetualFeeParamsResponse)
  | userFeeTier (r : FeeTierModule.QueryUserFeeTierResponse)
  | userStats (r : StatsModule.QueryUserStatsResponse)
  | allBalances (r : BankModule.QueryAllBalancesResponse)
  | balance (r : BankModule.QueryBalanceResponse)
  | subaccountAll (r : SubaccountsModule.QuerySubaccountAllResponse)
  | subaccount (r : SubaccountsModule.QuerySubaccountResponse)
  | rewardsParams (r : RewardsModule.QueryParamsResponse)
  | clobPairAll (r : ClobModule.QueryClobPairAllResponse)
  | clobPair (r : ClobModule.QueryClobPairResponse)
  | marketPricesAll (r : PricesModule.QueryAllMarketPricesResponse)
  | marketPrice (r : PricesModule.QueryMarketPriceResponse)
  | perpetualAll (r : PerpetualsModule.QueryAllPerpetualsResponse)
  | perpetual (r : PerpetualsModule.QueryPerpetualResponse)
  | account (r : AuthModule.QueryAccountResponse)
  | equityTier (r : ClobModule.QueryEquityTierLimitConfigurationResponse)
  | delegatorDelegations (r : StakingModule.QueryDelegatorDelegationsResponse)
  | delegatorUnbonding (r : StakingModule.QueryDelegatorUnbondingDelegationsResponse)
  | bridgeMessages (r : BridgeModule.QueryDelayedCompleteBridgeMessagesResponse)
  | validators (r : StakingModule.QueryValidatorsResponse)
deriving DecidableEq

/-- The 1:1 registry binding each RPC path string to its response message
type: decoding raw response bytes under a given path uses exactly that path's
message definition. -/
def decodeAtPath (path : String) (bs : Bytes) : Option DecodedResponse :=
  if path = "/dydxprotocol.feetiers.Query/PerpetualFeeParams" then
    (FeeTierModule.QueryPerpetualFeeParamsResponse.dec bs).map .feeTiers
  else if path = "/dydxprotocol.feetiers.Query/UserFeeTier" then
    (FeeTierModule.QueryUserFeeTierResponse.dec bs).map .userFeeTier
  else if path = "/dydxprotocol.stats.Query/UserStats" then
    (StatsModule.QueryUserStatsResponse.dec bs).map .userStats
  else if path = "/cosmos.bank.v1beta1.Query/AllBalances" then
    (BankModule.QueryAllBalancesResponse.dec bs).map .allBalances
  else if path = "/cosmos.bank.v1beta1.Query/Balance" then
    (BankModule.QueryBalanceResponse.dec bs).map .balance
  else if path = "/dydxprotocol.subaccounts.Query/SubaccountAll" then
    (SubaccountsModule.QuerySubaccountAllResponse.dec bs).map .subaccountAll
  else if path = "/dydxprotocol.subaccounts.Query/Subaccount" then
    (SubaccountsModule.QuerySubaccountResponse.dec bs).map .subaccount
  else if path = "/dydxprotocol.rewards.Query/Params" then
    (RewardsModule.QueryParamsResponse.dec bs).map .rewardsParams
  else if path = "/dydxprotocol.clob.Query/ClobPairAll" then
    (ClobModule.QueryClobPairAllResponse.dec bs).map .clobPairAll
  else if path = "/dydxprotocol.clob.Query/ClobPair" then
    (ClobModule.QueryClobPairResponse.dec bs).map .clobPair
  else if path = "/dydxprotocol.prices.Query/AllMarketPrices" then
    (PricesModule.QueryAllMarketPricesResponse.dec bs).map .marketPricesAll
  else if path = "/dydxprotocol.prices.Query/MarketPrice" then
    (PricesModule.QueryMarketPriceResponse.dec bs).map .marketPrice
  else if path = "/dydxprotocol.perpetuals.Query/AllPerpetuals" then
    (PerpetualsModule.QueryAllPerpetualsResponse.dec bs).map .perpetualAll
  else if path = "/dydxprotocol.perpetuals.Query/Perpetual" then
    (PerpetualsModule.QueryPerpetualResponse.dec bs).map .perpetual
  else if path = "/cosmos.auth.v1beta1.Query/Account" then
    (AuthModule.QueryAccountResponse.dec bs).map .account
  else if path = "/dydxprotocol.clob.Query/EquityTierLimitConfiguration" then
    (ClobModule.QueryEquityTierLimitConfigurationResponse.dec bs).map .equityTier
  else if path = "/cosmos.staking.v1beta1.Query/DelegatorDelegations" then
    (StakingModule.QueryDelegatorDelegationsResponse.dec bs).map .delegatorDelegations
  else if path = "/cosmos.staking.v1beta1.Query/DelegatorUnbondingDelegations" then
    (StakingModule.QueryDelegatorUnbondingDelegationsResponse.dec bs).map
      .delegatorUnbonding
  else if path = "/dydxprotocol.bridge.Query/DelayedCompleteBridgeMessages" then
    (BridgeModule.QueryDelayedCompleteBridgeMessagesResponse.dec bs).map .bridgeMessages
  else if path = "/cosmos.staking.v1beta1.Query/Validators" then
    (StakingModule.QueryValidatorsResponse.dec bs).map .validators
  else none

/-- How each method turns the response decoded at its own path into its
result: a plain wrap for most methods, a field projection for
`getUserStats` / `getAccountBalances` / `getAccountBalance`, and the
tagged-account reconstruction (with the "unexpected response" error on an
absent account field) for `getAccount`. -/
def interpretDecoded : MethodCall → Option DecodedResponse →
    Except ClientError ResponseVal
  | .getFeeTiers => fun o =>
    match o with
    | some (.feeTiers r) => .ok (.feeTiers r)
    | _ => .error .decodeFailed
  | .getUserFeeTier _ => fun o =>
    match o with
    | some (.userFeeTier r) => .ok (.userFeeTier r)
    | _ => .error .decodeFailed
  | .getUserStats _ => fun o =>
    match o with
    | some (.userStats r) => .ok (.userStats r.stats)
    | _ => .error .decodeFailed
  | .getAccountBalances _ => fun o =>
    match o with
    | some (.allBalances r) => .ok (.accountBalances r.balances)
    | _ => .error .decodeFailed
  | .getAccountBalance _ _ => fun o =>
    match o with
    | some (.balance r) => .ok (.accountBalance r.balance)
    | _ => .error .decodeFailed
  | .getSubaccounts => fun o =>
    match o with
    | some (.subaccountAll r) => .ok (.subaccounts r)
    | _ => .error .decodeFailed
  | .getSubaccount _ _ => fun o =>
    match o with
    | some (.subaccount r) => .ok (.subaccount r)
    | _ => .error .decodeFailed
  | .getRewardsParams => fun o =>
    match o with
    | some (.rewardsParams r) => .ok (.rewardsParams r)
    | _ => .error .decodeFailed
  | .getAllClobPairs => fun o =>
    match o with
    | some (.clobPairAll r) => .ok (.allClobPairs r)
    | _ => .error .decodeFailed
  | .getClobPair _ => fun o =>
    match o with
    | some (.clobPair r) => .ok (.clobPair r)
    | _ => .error .decodeFailed
  | .getAllPrices => fun o =>
    match o with
    | some (.marketPricesAll r) => .ok (.allPrices r)
    | _ => .error .decodeFailed
  | .getPrice _ => fun o =>
    match o with
    | some (.marketPrice r) => .ok (.price r)
    | _ => .error .decodeFailed
  | .getAllPerpetuals => fun o =>
    match o with
    | some (.perpetualAll r) => .ok (.allPerpetuals r)
    | _ => .error .decodeFailed
  | .getPerpetual _ => fun o =>
    match o with
    | some (.perpetual r) => .ok (.perpetual r)
    | _ => .error .decodeFailed
  | .getAccount _ => fun o =>
    match o with
    | some (.account r) =>
      (match r.account with
       | none => .error .unexpectedClientError
       | some rawAccount => (accountFromAny rawAccount).map .account)
    | _ => .error .decodeFailed
  | .getEquityTierLimitConfiguration => fun o =>
    match o with
    | some (.equityTier r) => .ok (.equityTierLimitConfiguration r)
    | _ => .error .decodeFailed
  | .getDelegatorDelegations _ => fun o =>
    match o with
    | some (.delegatorDelegations r) => .ok (.delegatorDelegations r)
    | _ => .error .decodeFailed
  | .getDelegatorUnbondingDelegations _ => fun o =>
    match o with
    | some (.delegatorUnbonding r) => .ok (.delegatorUnbondingDelegations r)
    | _ => .error .decodeFailed
  | .getDelayedCompleteBridgeMessages _ => fun o =>
    match o with
    | some (.bridgeMessages r) => .ok (.delayedCompleteBridgeMessages r)
    | _ => .error .decodeFailed
  | .getAllValidators _ => fun o =>
    match o with
    | some (.validators r) => .ok (.validators r)
    | _ => .error .decodeFailed

/-- The list of all RPC path strings used by the query methods. -/
def methodPaths : List String :=
  ["/dydxprotocol.feetiers.Query/PerpetualFeeParams",
   "/dydxprotocol.feetiers.Query/UserFeeTier",
   "/dydxprotocol.stats.Query/UserStats",
   "/cosmos.bank.v1beta1.Query/AllBalances",
   "/cosmos.bank.v1beta1.Query/Balance",
   "/dydxprotocol.subaccounts.Query/SubaccountAll",
   "/dydxprotocol.subaccounts.Query/Subaccount",
   "/dydxprotocol.rewards.Query/Params",
   "/dydxprotocol.clob.Query/ClobPairAll",
   "/dydxprotocol.clob.Query/ClobPair",
   "/dydxprotocol.prices.Query/AllMarketPrices",
   "/dydxprotocol.prices.Query/MarketPrice",
   "/dydxprotocol.perpetuals.Query/AllPerpetuals",
   "/dydxprotocol.perpetuals.Query/Perpetual",
   "/cosmos.auth.v1beta1.Query/Account",
   "/dydxprotocol.clob.Query/EquityTierLimitConfiguration",
   "/cosmos.staking.v1beta1.Query/DelegatorDelegations",
   "/cosmos.staking.v1beta1.Query/DelegatorUnbondingDelegations",
   "/dydxprotocol.bridge.Query/DelayedCompleteBridgeMessages",
   "/cosmos.staking.v1beta1.Query/Validators"]

/-! ## Concrete fixtures used by the witnesses -/

/-- A fixture address ("dydx1" in ASCII). -/
def fixtureAddress : Bytes := [100, 121, 100, 120, 49]

/-- A fixture denom ("adv4tnt" in ASCII). -/
def fixtureDenom : Bytes := [97, 100, 118, 52, 116, 110, 116]

/-- A second, different denom ("ibc/x" in ASCII). -/
def fixtureOtherDenom : Bytes := [105, 98, 99, 47, 120]

/-- A gateway whose transport always succeeds with an empty payload. -/
def fixtureGetEmpty : Get :=
  { tendermintClient := { getBlock := .ok {} },
    stargateQueryClient := { queryUnverified := fun _ _ => .ok [] } }

/-- A gateway like `fixtureGetEmpty` but with a different block fixture. -/
def fixtureGetEmptyAlt : Get :=
  { tendermintClient := { getBlock := .ok { header := { height := 77 } } },
    stargateQueryClient := { queryUnverified := fun _ _ => .ok [] } }

/-- A gateway whose transport always fails with a fixed transport error. -/
def fixtureGetErr : Get :=
  { tendermintClient := { getBlock := .ok {} },
    stargateQueryClient := { queryUnverified := fun _ _ => .error (.transportError 7) } }

/-- A fixture tagged account envelope (a `BaseAccount` type tag with an empty
payload). -/
def fixtureAny : Any := { typeUrl := baseAccountTypeUrl, value := [] }

/-- A fixture account query response carrying `fixtureAny`. -/
def fixtureAccountResponse : AuthModule.QueryAccountResponse :=
  { account := some fixtureAny }

/-- The wire bytes of `fixtureAccountResponse`. -/
def fixtureAccountBytes : Bytes := AuthModule.QueryAccountResponse.enc fixtureAccountResponse

/-- A gateway whose transport returns `fixtureAccountBytes`. -/
def fixtureGetAccount : Get :=
  { tendermintClient := { getBlock := .ok {} },
    stargateQueryClient := { queryUnverified := fun _ _ => .ok fixtureAccountBytes } }

/-- A fixture balance response: a coin whose denom matches `fixtureDenom`. -/
def fixtureBalanceResponse : BankModule.QueryBalanceResponse :=
  { balance := some { denom := fixtureDenom, amount := [49, 48, 48] } }

/-- The wire bytes of `fixtureBalanceResponse`. -/
def fixtureBalanceBytes : Bytes := BankModule.QueryBalanceResponse.enc fixtureBalanceResponse

/-- A gateway whose transport returns `fixtureBalanceBytes`. -/
def fixtureGetBalance : Get :=
  { tendermintClient := { getBlock := .ok {} },
    stargateQueryClient := { queryUnverified := fun _ _ => .ok fixtureBalanceBytes } }

/-- A fixture user-stats response with a present stats record. -/
def fixtureStatsResponse : StatsModule.QueryUserStatsResponse :=
  { stats := some { takerNotional := 300, makerNotional := 501 } }

/-- The wire bytes of `fixtureStatsResponse`. -/
def fixtureStatsBytes : Bytes := StatsModule.QueryUserStatsResponse.enc fixtureStatsResponse

/-- A gateway whose transport returns `fixtureStatsBytes`. -/
def fixtureGetStats : Get :=
  { tendermintClient := { getBlock := .ok {} },
    stargateQueryClient := { queryUnverified := fun _ _ => .ok fixtureStatsBytes } }

/-- A gateway whose block-tip boundary reports height 12345. -/
def fixtureGetBlock : Get :=
  { tendermintClient := { getBlock := .ok { header := { height := 12345 } } },
    stargateQueryClient := { queryUnverified := fun _ _ => .ok [] } }

/-! ## Claim C1 -/

/-- C1: for every call of `getAccount(address)`, if the decoded
`QueryAccountResponse` has an absent account field then `getAccount` raises
the `UnexpectedClientError`; if the account field is present, `getAccount`
returns the account reconstructed from that tagged `Any` value via
`accountFromAny` and raises no such error. -/
theorem getAccount_unexpected_response_contract (g : Get) (address bytes : Bytes)
    (resp : AuthModule.QueryAccountResponse)
    (hq : g.stargateQueryClient.queryUnverified "/cosmos.auth.v1beta1.Query/Account"
      (AuthModule.QueryAccountRequest.enc { address := address }) = .ok bytes)
    (hdec : AuthModule.QueryAccountResponse.dec bytes = some resp) :
    (resp.account = none →
      (g.getAccount address).1 = .error .unexpectedClientError) ∧
    (∀ a, resp.account = some a → (g.getAccount address).1 = accountFromAny a) := by
  constructor
  · intro hnone
    simp [Get.getAccount, Get.sendQuery, hq, hdec, toDecoded, hnone, Except.bind]
  · intro a ha
    simp [Get.getAccount, Get.sendQuery, hq, hdec, toDecoded, ha, Except.bind]

theorem getAccount_unexpected_response_contract_witness :
    AuthModule.QueryAccountResponse.dec fixtureAccountBytes = some fixtureAccountResponse ∧
    (fixtureGetAccount.getAccount fixtureAddress).1 = accountFromAny fixtureAny := by
  refine ⟨by decide, ?_⟩
  exact (getAccount_unexpected_response_contract fixtureGetAccount fixtureAddress
    fixtureAccountBytes fixtureAccountResponse rfl (by decide)).2 fixtureAny (by decide)

/-! ## Claim C3 -/

/-- C3: for every call of `getAccountBalance(address, denom)`, when the
decoded `QueryBalanceResponse` carries no balance entry the method returns an
explicit absent value rather than raising an error; when a balance entry is
present it returns exactly that `(denom, amount)` coin pair. -/
theorem getAccountBalance_absent_or_exact (g : Get) (address denom bytes : Bytes)
    (resp : BankModule.QueryBalanceResponse)
    (hq : g.stargateQueryClient.queryUnverified "/cosmos.bank.v1beta1.Query/Balance"
      (BankModule.QueryBalanceRequest.enc { address := address, denom := denom })
      = .ok bytes)
    (hdec : BankModule.QueryBalanceResponse.dec bytes = some resp) :
    (resp.balance = none → (g.getAccountBalance address denom).1 = .ok none) ∧
    (∀ c, resp.balance = some c →
      (g.getAccountBalance address denom).1 = .ok (some c)) := by
  constructor
  · intro hnone
    simp [Get.getAccountBalance, Get.sendQuery, hq, hdec, toDecoded, hnone,
      Except.bind, Except.map]
  · intro c hc
    simp [Get.getAccountBalance, Get.sendQuery, hq, hdec, toDecoded, hc,
      Except.bind, Except.map]

theorem getAccountBalance_absent_or_exact_witness :
    BankModule.QueryBalanceResponse.dec fixtureBalanceBytes = some fixtureBalanceResponse ∧
    (fixtureGetBalance.getAccountBalance fixtureAddress fixtureDenom).1
      = .ok (some { denom := fixtureDenom, amount := [49, 48, 48] }) := by
  refine ⟨by decide, ?_⟩
  exact (getAccountBalance_absent_or_exact fixtureGetBalance fixtureAddress fixtureDenom
    fixtureBalanceBytes fixtureBalanceResponse rfl (by decide)).2 _ (by decide)

/-! ## Claim C9 -/

/-- C9: `getUserStats(address)` resolves to an absent value (not an error)
whenever the decoded `QueryUserStatsResponse` has its stats field unset; when
the field is set it returns exactly that stats record (taker and maker
notional). -/
theorem getUserStats_absent_value (g : Get) (address bytes : Bytes)
    (resp : StatsModule.QueryUserStatsResponse)
    (hq : g.stargateQueryClient.queryUnverified "/dydxprotocol.stats.Query/UserStats"
      (StatsModule.QueryUserStatsRequest.enc { user := address }) = .ok bytes)
    (hdec : StatsModule.QueryUserStatsResponse.dec bytes = some resp) :
    (resp.stats = none → (g.getUserStats address).1 = .ok none) ∧
    (∀ s, resp.stats = some s → (g.getUserStats address).1 = .ok (some s)) := by
  constructor
  · intro hnone
    simp [Get.getUserStats, Get.sendQuery, hq, hdec, toDecoded, hnone,
      Except.bind, Except.map]
  · intro s hs
    simp [Get.getUserStats, Get.sendQuery, hq, hdec, toDecoded, hs,
      Except.bind, Except.map]

theorem getUserStats_absent_value_witness :
    StatsModule.QueryUserStatsResponse.dec fixtureStatsBytes = some fixtureStatsResponse ∧
    (fixtureGetStats.getUserStats fixtureAddress).1
      = .ok (some { takerNotional := 300, makerNotional := 501 }) := by
  refine ⟨by decide, ?_⟩
  exact (getUserStats_absent_value fixtureGetStats fixtureAddress fixtureStatsBytes
    fixtureStatsResponse rfl (by decide)).2 _ (by decide)

/-! ## Claim C10 -/

/-- C10: `getAccountBalance(address, denom)` returns the decoded response's
balance field verbatim without checking that its denom equals the requested
denom argument: even when the decoded coin's denom differs from the argument,
the returned coin is exactly the decoded one (no client-side consistency
validation). -/
theorem getAccountBalance_no_denom_validation (g : Get) (address denom bytes : Bytes)
    (resp : BankModule.QueryBalanceResponse) (c : Coin)
    (hq : g.stargateQueryClient.queryUnverified "/cosmos.bank.v1beta1.Query/Balance"
      (BankModule.QueryBalanceRequest.enc { address := address, denom := denom })
      = .ok bytes)
    (hdec : BankModule.QueryBalanceResponse.dec bytes = some resp)
    (hc : resp.balance = some c) (hne : c.denom ≠ denom) :
    (g.getAccountBalance address denom).1 = .ok (some c) := by
  simp [Get.getAccountBalance, Get.sendQuery, hq, hdec, toDecoded, hc,
    Except.bind, Except.map]

theorem getAccountBalance_no_denom_validation_witness :
    BankModule.QueryBalanceResponse.dec fixtureBalanceBytes = some fixtureBalanceResponse ∧
    fixtureBalanceResponse.balance = some { denom := fixtureDenom, amount := [49, 48, 48] } ∧
    fixtureDenom ≠ fixtureOtherDenom ∧
    (fixtureGetBalance.getAccountBalance fixtureAddress fixtureOtherDenom).1
      = .ok (some { denom := fixtureDenom, amount := [49, 48, 48] }) := by
  refine ⟨by decide, by decide, by decide, ?_⟩
  exact getAccountBalance_no_denom_validation fixtureGetBalance fixtureAddress
    fixtureOtherDenom fixtureBalanceBytes fixtureBalanceResponse _ rfl (by decide)
    (by decide) (by decide)

/-! ## Claim C4 -/

/-- C4: `latestBlockHeight()` performs exactly one block-tip round-trip (one
`tendermintClient.getBlock` call, and no generic query-transport call), and
returns exactly the `header.height` field of the block that `latestBlock()`
returns for the same underlying block-tip query. -/
theorem latestBlockHeight_single_blocktip (g : Get) :
    (g.latestBlockHeight).2 = [TraceEvent.blockCall] ∧
    (g.latestBlock).2 = [TraceEvent.blockCall] ∧
    (∀ b, (g.latestBlock).1 = .ok b →
      (g.latestBlockHeight).1 = .ok b.header.height) := by
  refine ⟨rfl, rfl, ?_⟩
  intro b hb
  simp [Get.latestBlockHeight, Get.latestBlock] at hb ⊢
  simp [hb, Except.map]

theorem latestBlockHeight_single_blocktip_witness :
    (fixtureGetBlock.latestBlock).1 = .ok { header := { height := 12345 } } ∧
    (fixtureGetBlock.latestBlockHeight).1 = .ok 12345 := by
  refine ⟨rfl, ?_⟩
  exact (latestBlockHeight_single_blocktip fixtureGetBlock).2.2
    { header := { height := 12345 } } rfl

/-! ## Claim C2 -/

/-- C2 (counterexample): `getSubaccounts` is a list-style query method called
with no pagination argument, yet its outgoing request does NOT carry the
shared default pagination descriptor `PAGE_REQUEST`: its trace differs from
the one that would attach the default explicitly. -/
theorem pagination_default_counterexample :
    ¬ ((fixtureGetEmpty.getSubaccounts).2
      = [TraceEvent.queryCall "/dydxprotocol.subaccounts.Query/SubaccountAll"
          (SubaccountsModule.QueryAllSubaccountRequest.enc
            { pagination := some PAGE_REQUEST })]) := by
  decide

/-- C2 (amended): of the list-style query methods, `getAllClobPairs`,
`getAllPrices`, `getAllPerpetuals`, `getDelegatorDelegations`,
`getDelegatorUnbondingDelegations`, and `getAllValidators` each produce an
outgoing request whose encoded bytes carry the shared default pagination
descriptor `PAGE_REQUEST`, byte-for-byte identical to a request constructed
with that default supplied explicitly (and genuinely different from one with
no pagination attached); `getSubaccounts` instead encodes its request with no
pagination descriptor, and `getDelayedCompleteBridgeMessages` uses a request
type with no pagination field at all. -/
theorem pagination_default_amended (g : Get) (delegatorAddr status address : Bytes) :
    ((g.getAllClobPairs).2
      = [TraceEvent.queryCall "/dydxprotocol.clob.Query/ClobPairAll"
          (ClobModule.QueryAllClobPairRequest.enc { pagination := some PAGE_REQUEST })]) ∧
    ((g.getAllPrices).2
      = [TraceEvent.queryCall "/dydxprotocol.prices.Query/AllMarketPrices"
          (PricesModule.QueryAllMarketPricesRequest.enc
            { pagination := some PAGE_REQUEST })]) ∧
    ((g.getAllPerpetuals).2
      = [TraceEvent.queryCall "/dydxprotocol.perpetuals.Query/AllPerpetuals"
          (PerpetualsModule.QueryAllPerpetualsRequest.enc
            { pagination := some PAGE_REQUEST })]) ∧
    ((g.getDelegatorDelegations delegatorAddr).2
      = [TraceEvent.queryCall "/cosmos.staking.v1beta1.Query/DelegatorDelegations"
          (StakingModule.QueryDelegatorDelegationsRequest.enc
            { delegatorAddr := delegatorAddr, pagination := some PAGE_REQUEST })]) ∧
    ((g.getDelegatorUnbondingDelegations delegatorAddr).2
      = [TraceEvent.queryCall "/cosmos.staking.v1beta1.Query/DelegatorUnbondingDelegations"
          (StakingModule.QueryDelegatorUnbondingDelegationsRequest.enc
            { delegatorAddr := delegatorAddr, pagination := some PAGE_REQUEST })]) ∧
    ((g.getAllValidators status).2
      = [TraceEvent.queryCall "/cosmos.staking.v1beta1.Query/Validators"
          (StakingModule.QueryValidatorsRequest.enc
            { status := status, pagination := some PAGE_REQUEST })]) ∧
    ((g.getSubaccounts).2
      = [TraceEvent.queryCall "/dydxprotocol.subaccounts.Query/SubaccountAll"
          (SubaccountsModule.QueryAllSubaccountRequest.enc { pagination := none })]) ∧
    ((g.getDelayedCompleteBridgeMessages address).2
      = [TraceEvent.queryCall "/dydxprotocol.bridge.Query/DelayedCompleteBridgeMessages"
          (BridgeModule.QueryDelayedCompleteBridgeMessagesRequest.enc
            { address := address })]) ∧
    (SubaccountsModule.QueryAllSubaccountRequest.enc { pagination := none }
      ≠ SubaccountsModule.QueryAllSubaccountRequest.enc
          { pagination := some PAGE_REQUEST }) := by
  exact ⟨rfl, rfl, rfl, rfl, rfl, rfl, rfl, rfl, by decide⟩

/-! ## Claim C5 -/

set_option maxHeartbeats 2000000 in
/-- C5: the path strings are pairwise distinct; every query method dispatches
to its one fixed path string with the request encoded by the request message
type bound to that path, and decodes the returned bytes with that same
path's matching response message type (the `decodeAtPath` registry). -/
theorem query_path_binding :
    methodPaths.Nodup ∧
    ∀ (m : MethodCall) (g : Get),
      pathOf m ∈ methodPaths ∧
      (runMethod g m).2 = [TraceEvent.queryCall (pathOf m) (requestDataOf m)] ∧
      ∀ bytes,
        g.stargateQueryClient.queryUnverified (pathOf m) (requestDataOf m) = .ok bytes →
        (runMethod g m).1 = interpretDecoded m (decodeAtPath (pathOf m) bytes) := by
  refine ⟨by decide, ?_⟩
  intro m g
  refine ⟨?_, ?_, ?_⟩
  · cases m <;> simp [pathOf, methodPaths]
  · cases m <;> rfl
  · intro bytes hb
    cases m with
    | getFeeTiers =>
      simp only [pathOf, requestDataOf] at hb
      simp only [runMethod, Get.getFeeTiers, Get.sendQuery, pathOf, requestDataOf, hb]
      rw [show decodeAtPath "/dydxprotocol.feetiers.Query/PerpetualFeeParams" bytes
          = (FeeTierModule.QueryPerpetualFeeParamsResponse.dec bytes).map .feeTiers
        from by simp [decodeAtPath]]
      cases hdec : FeeTierModule.QueryPerpetualFeeParamsResponse.dec bytes <;>
        simp [interpretDecoded, toDecoded, hdec, Except.bind, Except.map]
    | getUserFeeTier a =>
      simp only [pathOf, requestDataOf] at hb
      simp only [runMethod, Get.getUserFeeTier, Get.sendQuery, pathOf, requestDataOf, hb]
      rw [show decodeAtPath "/dydxprotocol.feetiers.Query/UserFeeTier" bytes
          = (FeeTierModule.QueryUserFeeTierResponse.dec bytes).map .userFeeTier
        from by simp [decodeAtPath]]
      cases hdec : FeeTierModule.QueryUserFeeTierResponse.dec bytes <;>
        simp [interpretDecoded, toDecoded, hdec, Except.bind, Except.map]
    | getUserStats a =>
      simp only [pathOf, requestDataOf] at hb
      simp only [runMethod, Get.getUserStats, Get.sendQuery, pathOf, requestDataOf, hb]
      rw [show decodeAtPath "/dydxprotocol.stats.Query/UserStats" bytes
          = (StatsModule.QueryUserStatsResponse.dec bytes).map .userStats
        from by simp [decodeAtPath]]
      cases hdec : StatsModule.QueryUserStatsResponse.dec bytes <;>
        simp [interpretDecoded, toDecoded, hdec, Except.bind, Except.map]
    | getAccountBalances a =>
      simp only [pathOf, requestDataOf] at hb
      simp only [runMethod, Get.getAccountBalances, Get.sendQuery, pathOf,
        requestDataOf, hb]
      rw [show decodeAtPath "/cosmos.bank.v1beta1.Query/AllBalances" bytes
          = (BankModule.QueryAllBalancesResponse.dec bytes).map .allBalances
        from by simp [decodeAtPath]]
      cases hdec : BankModule.QueryAllBalancesResponse.dec bytes <;>
        simp [interpretDecoded, toDecoded, hdec, Except.bind, Except.map]
    | getAccountBalance a d =>
      simp only [pathOf, requestDataOf] at hb
      simp only [runMethod, Get.getAccountBalance, Get.sendQuery, pathOf,
        requestDataOf, hb]
      rw [show decodeAtPath "/cosmos.bank.v1beta1.Query/Balance" bytes
          = (BankModule.QueryBalanceResponse.dec bytes).map .balance
        from by simp [decodeAtPath]]
      cases hdec : BankModule.QueryBalanceResponse.dec bytes <;>
        simp [interpretDecoded, toDecoded, hdec, Except.bind, Except.map]
    | getSubaccounts =>
      simp only [pathOf, requestDataOf] at hb
      simp only [runMethod, Get.getSubaccounts, Get.sendQuery, pathOf, requestDataOf, hb]
      rw [show decodeAtPath "/dydxprotocol.subaccounts.Query/SubaccountAll" bytes
          = (SubaccountsModule.QuerySubaccountAllResponse.dec bytes).map .subaccountAll
        from by simp [decodeAtPath]]
      cases hdec : SubaccountsModule.QuerySubaccountAllResponse.dec bytes <;>
        simp [interpretDecoded, toDecoded, hdec, Except.bind, Except.map]
    | getSubaccount a n =>
      simp only [pathOf, requestDataOf] at hb
      simp only [runMethod, Get.getSubaccount, Get.sendQuery, pathOf, requestDataOf, hb]
      rw [show decodeAtPath "/dydxprotocol.subaccounts.Query/Subaccount" bytes
          = (SubaccountsModule.QuerySubaccountResponse.dec bytes).map .subaccount
        from by simp [decodeAtPath]]
      cases hdec : SubaccountsModule.QuerySubaccountResponse.dec bytes <;>
        simp [interpretDecoded, toDecoded, hdec, Except.bind, Except.map]
    | getRewardsParams =>
      simp only [pathOf, requestDataOf] at hb
      simp only [runMethod, Get.getRewardsParams, Get.sendQuery, pathOf,
        requestDataOf, hb]
      rw [show decodeAtPath "/dydxprotocol.rewards.Query/Params" bytes
          = (RewardsModule.QueryParamsResponse.dec bytes).map .rewardsParams
        from by simp [decodeAtPath]]
      cases hdec : RewardsModule.QueryParamsResponse.dec bytes <;>
        simp [interpretDecoded, toDecoded, hdec, Except.bind, Except.map]
    | getAllClobPairs =>
      simp only [pathOf, requestDataOf] at hb
      simp only [runMethod, Get.getAllClobPairs, Get.sendQuery, pathOf,
        requestDataOf, hb]
      rw [show decodeAtPath "/dydxprotocol.clob.Query/ClobPairAll" bytes
          = (ClobModule.QueryClobPairAllResponse.dec bytes).map .clobPairAll
        from by simp [decodeAtPath]]
      cases hdec : ClobModule.QueryClobPairAllResponse.dec bytes <;>
        simp [interpretDecoded, toDecoded, hdec, Except.bind, Except.map]
    | getClobPair i =>
      simp only [pathOf, requestDataOf] at hb
      simp only [runMethod, Get.getClobPair, Get.sendQuery, pathOf, requestDataOf, hb]
      rw [show decodeAtPath "/dydxprotocol.clob.Query/ClobPair" bytes
          = (ClobModule.QueryClobPairResponse.dec bytes).map .clobPair
        from by simp [decodeAtPath]]
      cases hdec : ClobModule.QueryClobPairResponse.dec bytes <;>
        simp [interpretDecoded, toDecoded, hdec, Except.bind, Except.map]
    | getAllPrices =>
      simp only [pathOf, requestDataOf] at hb
      simp only [runMethod, Get.getAllPrices, Get.sendQuery, pathOf, requestDataOf, hb]
      rw [show decodeAtPath "/dydxprotocol.prices.Query/AllMarketPrices" bytes
          = (PricesModule.QueryAllMarketPricesResponse.dec bytes).map .marketPricesAll
        from by simp [decodeAtPath]]
      cases hdec : PricesModule.QueryAllMarketPricesResponse.dec bytes <;>
        simp [interpretDecoded, toDecoded, hdec, Except.bind, Except.map]
    | getPrice i =>
      simp only [pathOf, requestDataOf] at hb
      simp only [runMethod, Get.getPrice, Get.sendQuery, pathOf, requestDataOf, hb]
      rw [show decodeAtPath "/dydxprotocol.prices.Query/MarketPrice" bytes
          = (PricesModule.QueryMarketPriceResponse.dec bytes).map .marketPrice
        from by simp [decodeAtPath]]
      cases hdec : PricesModule.QueryMarketPriceResponse.dec bytes <;>
        simp [interpretDecoded, toDecoded, hdec, Except.bind, Except.map]
    | getAllPerpetuals =>
      simp only [pathOf, requestDataOf] at hb
      simp only [runMethod, Get.getAllPerpetuals, Get.sendQuery, pathOf,
        requestDataOf, hb]
      rw [show decodeAtPath "/dydxprotocol.perpetuals.Query/AllPerpetuals" bytes
          = (PerpetualsModule.QueryAllPerpetualsResponse.dec bytes).map .perpetualAll
        from by simp [decodeAtPath]]
      cases hdec : PerpetualsModule.QueryAllPerpetualsResponse.dec bytes <;>
        simp [interpretDecoded, toDecoded, hdec, Except.bind, Except.map]
    | getPerpetual i =>
      simp only [pathOf, requestDataOf] at hb
      simp only [runMethod, Get.getPerpetual, Get.sendQuery, pathOf, requestDataOf, hb]
      rw [show decodeAtPath "/dydxprotocol.perpetuals.Query/Perpetual" bytes
          = (PerpetualsModule.QueryPerpetualResponse.dec bytes).map .perpetual
        from by simp [decodeAtPath]]
      cases hdec : PerpetualsModule.QueryPerpetualResponse.dec bytes <;>
        simp [interpretDecoded, toDecoded, hdec, Except.bind, Except.map]
    | getAccount a =>
      simp only [pathOf, requestDataOf] at hb
      simp only [runMethod, Get.getAccount, Get.sendQuery, pathOf, requestDataOf, hb]
      rw [show decodeAtPath "/cosmos.auth.v1beta1.Query/Account" bytes
          = (AuthModule.QueryAccountResponse.dec bytes).map .account
        from by simp [decodeAtPath]]
      cases hdec : AuthModule.QueryAccountResponse.dec bytes with
      | none => simp [interpretDecoded, toDecoded, hdec, Except.bind, Except.map]
      | some resp =>
        cases hacc : resp.account <;>
          simp [interpretDecoded, toDecoded, hdec, hacc, Except.bind, Except.map]
    | getEquityTierLimitConfiguration =>
      simp only [pathOf, requestDataOf] at hb
      simp only [runMethod, Get.getEquityTierLimitConfiguration, Get.sendQuery,
        pathOf, requestDataOf, hb]
      rw [show decodeAtPath "/dydxprotocol.clob.Query/EquityTierLimitConfiguration" bytes
          = (ClobModule.QueryEquityTierLimitConfigurationResponse.dec bytes).map
              .equityTier
        from by simp [decodeAtPath]]
      cases hdec : ClobModule.QueryEquityTierLimitConfigurationResponse.dec bytes <;>
        simp [interpretDecoded, toDecoded, hdec, Except.bind, Except.map]
    | getDelegatorDelegations a =>
      simp only [pathOf, requestDataOf] at hb
      simp only [runMethod, Get.getDelegatorDelegations, Get.sendQuery, pathOf,
        requestDataOf, hb]
      rw [show decodeAtPath "/cosmos.staking.v1beta1.Query/DelegatorDelegations" bytes
          = (StakingModule.QueryDelegatorDelegationsResponse.dec bytes).map
              .delegatorDelegations
        from by simp [decodeAtPath]]
      cases hdec : StakingModule.QueryDelegatorDelegationsResponse.dec bytes <;>
        simp [interpretDecoded, toDecoded, hdec, Except.bind, Except.map]
    | getDelegatorUnbondingDelegations a =>
      simp only [pathOf, requestDataOf] at hb
      simp only [runMethod, Get.getDelegatorUnbondingDelegations, Get.sendQuery,
        pathOf, requestDataOf, hb]
      rw [show decodeAtPath
            "/cosmos.staking.v1beta1.Query/DelegatorUnbondingDelegations" bytes
          = (StakingModule.QueryDelegatorUnbondingDelegationsResponse.dec bytes).map
              .delegatorUnbonding
        from by simp [decodeAtPath]]
      cases hdec : StakingModule.QueryDelegatorUnbondingDelegationsResponse.dec bytes <;>
        simp [interpretDecoded, toDecoded, hdec, Except.bind, Except.map]
    | getDelayedCompleteBridgeMessages a =>
      simp only [pathOf, requestDataOf] at hb
      simp only [runMethod, Get.getDelayedCompleteBridgeMessages, Get.sendQuery,
        pathOf, requestDataOf, hb]
      rw [show decodeAtPath
            "/dydxprotocol.bridge.Query/DelayedCompleteBridgeMessages" bytes
          = (BridgeModule.QueryDelayedCompleteBridgeMessagesResponse.dec bytes).map
              .bridgeMessages
        from by simp [decodeAtPath]]
      cases hdec : BridgeModule.QueryDelayedCompleteBridgeMessagesResponse.dec bytes <;>
        simp [interpretDecoded, toDecoded, hdec, Except.bind, Except.map]
    | getAllValidators s =>
      simp only [pathOf, requestDataOf] at hb
      simp only [runMethod, Get.getAllValidators, Get.sendQuery, pathOf,
        requestDataOf, hb]
      rw [show decodeAtPath "/cosmos.staking.v1beta1.Query/Validators" bytes
          = (StakingModule.QueryValidatorsResponse.dec bytes).map .validators
        from by simp [decodeAtPath]]
      cases hdec : StakingModule.QueryValidatorsResponse.dec bytes <;>
        simp [interpretDecoded, toDecoded, hdec, Except.bind, Except.map]

theorem query_path_binding_witness :
    (fixtureGetEmpty.stargateQueryClient.queryUnverified (pathOf .getFeeTiers)
      (requestDataOf .getFeeTiers) = .ok []) ∧
    (runMethod fixtureGetEmpty .getFeeTiers).2
      = [TraceEvent.queryCall (pathOf .getFeeTiers) (requestDataOf .getFeeTiers)] ∧
    (runMethod fixtureGetEmpty .getFeeTiers).1
      = interpretDecoded .getFeeTiers (decodeAtPath (pathOf .getFeeTiers) []) := by
  refine ⟨rfl, (query_path_binding.2 .getFeeTiers fixtureGetEmpty).2.1, ?_⟩
  exact (query_path_binding.2 .getFeeTiers fixtureGetEmpty).2.2 [] rfl

/-! ## Claim C6 -/

/-- C6: every query method issues exactly one transport call per invocation,
and any error raised by that transport call is propagated to the caller
unchanged (no catching, transforming, swallowing, or retrying). -/
theorem transport_single_call_propagation (m : MethodCall) (g : Get) :
    (runMethod g m).2.length = 1 ∧
    ∀ e, g.stargateQueryClient.queryUnverified (pathOf m) (requestDataOf m) = .error e →
      (runMethod g m).1 = .error e := by
  constructor
  · cases m <;> rfl
  · intro e he
    cases m <;>
      (simp only [pathOf, requestDataOf] at he
       simp [runMethod, Get.getFeeTiers, Get.getUserFeeTier, Get.getUserStats,
         Get.getAccountBalances, Get.getAccountBalance, Get.getSubaccounts,
         Get.getSubaccount, Get.getRewardsParams, Get.getAllClobPairs,
         Get.getClobPair, Get.getAllPrices, Get.getPrice, Get.getAllPerpetuals,
         Get.getPerpetual, Get.getAccount, Get.getEquityTierLimitConfiguration,
         Get.getDelegatorDelegations, Get.getDelegatorUnbondingDelegations,
         Get.getDelayedCompleteBridgeMessages, Get.getAllValidators,
         Get.sendQuery, he, Except.bind, Except.map])

theorem transport_single_call_propagation_witness :
    (runMethod fixtureGetErr .getFeeTiers).2.length = 1 ∧
    fixtureGetErr.stargateQueryClient.queryUnverified (pathOf .getFeeTiers)
      (requestDataOf .getFeeTiers) = .error (.transportError 7) ∧
    (runMethod fixtureGetErr .getFeeTiers).1 = .error (.transportError 7) := by
  refine ⟨(transport_single_call_propagation .getFeeTiers fixtureGetErr).1, rfl, ?_⟩
  exact (transport_single_call_propagation .getFeeTiers fixtureGetErr).2
    (.transportError 7) rfl

/-! ## Claim C7 -/

/-- The decode-after-encode round-trip law, stated per query method: decoding
the method's encoded request bytes with the request message type bound to the
method's path reconstructs the constructed request message exactly. -/
def requestRoundTrip : MethodCall → Prop
  | .getFeeTiers =>
      FeeTierModule.QueryPerpetualFeeParamsRequest.dec (requestDataOf .getFeeTiers)
        = some {}
  | .getUserFeeTier a =>
      FeeTierModule.QueryUserFeeTierRequest.dec (requestDataOf (.getUserFeeTier a))
        = some { user := a }
  | .getUserStats a =>
      StatsModule.QueryUserStatsRequest.dec (requestDataOf (.getUserStats a))
        = some { user := a }
  | .getAccountBalances a =>
      BankModule.QueryAllBalancesRequest.dec (requestDataOf (.getAccountBalances a))
        = some { address := a }
  | .getAccountBalance a d =>
      BankModule.QueryBalanceRequest.dec (requestDataOf (.getAccountBalance a d))
        = some { address := a, denom := d }
  | .getSubaccounts =>
      SubaccountsModule.QueryAllSubaccountRequest.dec (requestDataOf .getSubaccounts)
        = some {}
  | .getSubaccount a n =>
      SubaccountsModule.QueryGetSubaccountRequest.dec (requestDataOf (.getSubaccount a n))
        = some { owner := a, number := n }
  | .getRewardsParams =>
      RewardsModule.QueryParamsRequest.dec (requestDataOf .getRewardsParams) = some {}
  | .getAllClobPairs =>
      ClobModule.QueryAllClobPairRequest.dec (requestDataOf .getAllClobPairs)
        = some { pagination := some PAGE_REQUEST }
  | .getClobPair i =>
      ClobModule.QueryGetClobPairRequest.dec (requestDataOf (.getClobPair i))
        = some { id := i }
  | .getAllPrices =>
      PricesModule.QueryAllMarketPricesRequest.dec (requestDataOf .getAllPrices)
        = some { pagination := some PAGE_REQUEST }
  | .getPrice i =>
      PricesModule.QueryMarketPriceRequest.dec (requestDataOf (.getPrice i))
        = some { id := i }
  | .getAllPerpetuals =>
      PerpetualsModule.QueryAllPerpetualsRequest.dec (requestDataOf .getAllPerpetuals)
        = some { pagination := some PAGE_REQUEST }
  | .getPerpetual i =>
      PerpetualsModule.QueryPerpetualRequest.dec (requestDataOf (.getPerpetual i))
        = some { id := i }
  | .getAccount a =>
      AuthModule.QueryAccountRequest.dec (requestDataOf (.getAccount a))
        = some { address := a }
  | .getEquityTierLimitConfiguration =>
      ClobModule.QueryEquityTierLimitConfigurationRequest.dec
        (requestDataOf .getEquityTierLimitConfiguration) = some {}
  | .getDelegatorDelegations a =>
      StakingModule.QueryDelegatorDelegationsRequest.dec
        (requestDataOf (.getDelegatorDelegations a))
        = some { delegatorAddr := a, pagination := some PAGE_REQUEST }
  | .getDelegatorUnbondingDelegations a =>
      StakingModule.QueryDelegatorUnbondingDelegationsRequest.dec
        (requestDataOf (.getDelegatorUnbondingDelegations a))
        = some { delegatorAddr := a, pagination := some PAGE_REQUEST }
  | .getDelayedCompleteBridgeMessages a =>
      BridgeModule.QueryDelayedCompleteBridgeMessagesRequest.dec
        (requestDataOf (.getDelayedCompleteBridgeMessages a))
        = some { address := a }
  | .getAllValidators s =>
      StakingModule.QueryValidatorsRequest.dec (requestDataOf (.getAllValidators s))
        = some { status := s, pagination := some PAGE_REQUEST }

/-- C7: for every query method and every choice of its typed arguments,
decoding (with the request message type of that method's path) the bytes
produced by encoding the method's constructed request reconstructs the
original request fields exactly. -/
theorem request_encode_decode_roundtrip (m : MethodCall) : requestRoundTrip m := by
  cases m <;>
    first
    | exact FeeTierModule.queryPerpetualFeeParamsRequest_dec_enc _
    | exact FeeTierModule.queryUserFeeTierRequest_dec_enc _
    | exact StatsModule.queryUserStatsRequest_dec_enc _
    | exact BankModule.queryAllBalancesRequest_dec_enc _
    | exact BankModule.queryBalanceRequest_dec_enc _
    | exact SubaccountsModule.queryAllSubaccountRequest_dec_enc _
    | exact SubaccountsModule.queryGetSubaccountRequest_dec_enc _
    | exact RewardsModule.queryParamsRequest_dec_enc _
    | exact ClobModule.queryAllClobPairRequest_dec_enc _
    | exact ClobModule.queryGetClobPairRequest_dec_enc _
    | exact PricesModule.queryAllMarketPricesRequest_dec_enc _
    | exact PricesModule.queryMarketPriceRequest_dec_enc _
    | exact PerpetualsModule.queryAllPerpetualsRequest_dec_enc _
    | exact PerpetualsModule.queryPerpetualRequest_dec_enc _
    | exact AuthModule.queryAccountRequest_dec_enc _
    | exact ClobModule.queryEquityTierLimitConfigurationRequest_dec_enc _
    | exact StakingModule.queryDelegatorDelegationsRequest_dec_enc _
    | exact StakingModule.queryDelegatorUnbondingDelegationsRequest_dec_enc _
    | exact BridgeModule.queryDelayedCompleteBridgeMessagesRequest_dec_enc _
    | exact StakingModule.queryValidatorsRequest_dec_enc _

/-! ## Claim C8 -/

/-- C8: no query method mutates or retains gateway state: a method's entire
behavior (result and trace) depends only on its arguments and the transport's
response to its one request — two gateways whose transports agree on that one
`(path, bytes)` call are indistinguishable — and the block-tip methods depend
only on the block-tip boundary. -/
theorem gateway_stateless :
    (∀ (m : MethodCall) (g g' : Get),
      g'.stargateQueryClient.queryUnverified (pathOf m) (requestDataOf m)
        = g.stargateQueryClient.queryUnverified (pathOf m) (requestDataOf m) →
      runMethod g' m = runMethod g m) ∧
    (∀ g g' : Get, g'.tendermintClient.getBlock = g.tendermintClient.getBlock →
      g'.latestBlock = g.latestBlock ∧ g'.latestBlockHeight = g.latestBlockHeight) := by
  constructor
  · intro m g g' h
    cases m <;>
      (simp only [pathOf, requestDataOf] at h
       simp [runMethod, Get.getFeeTiers, Get.getUserFeeTier, Get.getUserStats,
         Get.getAccountBalances, Get.getAccountBalance, Get.getSubaccounts,
         Get.getSubaccount, Get.getRewardsParams, Get.getAllClobPairs,
         Get.getClobPair, Get.getAllPrices, Get.getPrice, Get.getAllPerpetuals,
         Get.getPerpetual, Get.getAccount, Get.getEquityTierLimitConfiguration,
         Get.getDelegatorDelegations, Get.getDelegatorUnbondingDelegations,
         Get.getDelayedCompleteBridgeMessages, Get.getAllValidators,
         Get.sendQuery, h])
  · intro g g' h
    exact ⟨by simp [Get.latestBlock, h],
           by simp [Get.latestBlockHeight, Get.latestBlock, h]⟩

theorem gateway_stateless_witness :
    (fixtureGetEmptyAlt.stargateQueryClient.queryUnverified (pathOf .getFeeTiers)
        (requestDataOf .getFeeTiers)
      = fixtureGetEmpty.stargateQueryClient.queryUnverified (pathOf .getFeeTiers)
        (requestDataOf .getFeeTiers)) ∧
    runMethod fixtureGetEmptyAlt .getFeeTiers = runMethod fixtureGetEmpty .getFeeTiers := by
  exact ⟨rfl, gateway_stateless.1 .getFeeTiers fixtureGetEmpty fixtureGetEmptyAlt rfl⟩

end V4Client
